import Mathlib

/-!
Verification of the emscripten configuration resolver (`tools/config.py`).

The module is shallowly embedded: Python values appearing in the config
globals are modelled by `PyVal`, the module globals by the structure
`Globals`, and each Python function by a Lean function of the same name.
Side-effecting collaborators (environment, filesystem existence/writability,
executable lookup) are passed in as explicit parameters.
-/

/-- A Python value as it can appear in the configuration globals:
`None`, a bool, a string, or a (possibly nested) list. -/
inductive PyVal where
  | vNone : PyVal
  | vBool : Bool → PyVal
  | vStr : String → PyVal
  | vList : List PyVal → PyVal

mutual

def PyVal.decEq : (a b : PyVal) → Decidable (a = b)
  | .vNone, .vNone => .isTrue rfl
  | .vBool x, .vBool y =>
      if h : x = y then .isTrue (by rw [h]) else .isFalse (fun hc => h (by injection hc))
  | .vStr x, .vStr y =>
      if h : x = y then .isTrue (by rw [h]) else .isFalse (fun hc => h (by injection hc))
  | .vList xs, .vList ys =>
      match PyVal.decEqList xs ys with
      | .isTrue h => .isTrue (by rw [h])
      | .isFalse h => .isFalse (fun hc => h (by injection hc))
  | .vNone, .vBool _ => .isFalse (fun h => PyVal.noConfusion h)
  | .vNone, .vStr _ => .isFalse (fun h => PyVal.noConfusion h)
  | .vNone, .vList _ => .isFalse (fun h => PyVal.noConfusion h)
  | .vBool _, .vNone => .isFalse (fun h => PyVal.noConfusion h)
  | .vBool _, .vStr _ => .isFalse (fun h => PyVal.noConfusion h)
  | .vBool _, .vList _ => .isFalse (fun h => PyVal.noConfusion h)
  | .vStr _, .vNone => .isFalse (fun h => PyVal.noConfusion h)
  | .vStr _, .vBool _ => .isFalse (fun h => PyVal.noConfusion h)
  | .vStr _, .vList _ => .isFalse (fun h => PyVal.noConfusion h)
  | .vList _, .vNone => .isFalse (fun h => PyVal.noConfusion h)
  | .vList _, .vBool _ => .isFalse (fun h => PyVal.noConfusion h)
  | .vList _, .vStr _ => .isFalse (fun h => PyVal.noConfusion h)

def PyVal.decEqList : (a b : List PyVal) → Decidable (a = b)
  | [], [] => .isTrue rfl
  | [], _ :: _ => .isFalse (fun h => List.noConfusion h)
  | _ :: _, [] => .isFalse (fun h => List.noConfusion h)
  | x :: xs, y :: ys =>
      match PyVal.decEq x y, PyVal.decEqList xs ys with
      | .isTrue h1, .isTrue h2 => .isTrue (by rw [h1, h2])
      | .isFalse h1, _ => .isFalse (fun hc => h1 (by injection hc))
      | _, .isFalse h2 => .isFalse (fun hc => h2 (by injection hc))

end

instance : DecidableEq PyVal := PyVal.decEq

example : (PyVal.vList [PyVal.vStr "a"] = PyVal.vList [PyVal.vStr "a"]) := by decide

/-- Python truthiness of a `PyVal`: `None`, `False`, the empty string and the
empty list are falsy, everything else is truthy. -/
def truthy : PyVal → Bool
  | .vNone => false
  | .vBool b => b
  | .vStr s => !(s = "")
  | .vList l => !(l = [])

/-- `listify(x)` from config.py: `None` and lists pass through, any other
value is wrapped in a singleton list. -/
def listify : PyVal → PyVal
  | .vNone => .vNone
  | .vList l => .vList l
  | x => .vList [x]

/-- Python iteration over a value, as used by `for x in JS_ENGINES` and the
list comprehensions: a list yields its elements, a string yields its
characters as one-character strings, anything else raises `TypeError`
(modelled as `none`). -/
def pyIter : PyVal → Option (List PyVal)
  | .vList l => some l
  | .vStr s => some (s.data.map (fun c => .vStr (String.singleton c)))
  | _ => none

/-- Python subscript `x[0]`, as used by `JS_ENGINES[0]`: first element of a
non-empty list, first character of a non-empty string, an error (`none`)
otherwise (`IndexError` / `TypeError`). -/
def pyIndex0 : PyVal → Option PyVal
  | .vList (x :: _) => some x
  | .vStr s => match s.data with
      | c :: _ => some (.vStr (String.singleton c))
      | [] => none
  | _ => none

/-- Python `+` on two values as used by `new_spidermonkey += ['-w']`: list
concatenation; any non-list left operand raises `TypeError` (`none`). -/
def pyConcat : PyVal → PyVal → Option PyVal
  | .vList a, .vList b => some (.vList (a ++ b))
  | _, _ => none

/-- Escape of one character inside a Python string repr (backslash and the
single quote get a backslash; other escapes are not needed for the
characters occurring here). -/
def escChar (c : Char) : List Char :=
  if c = '\\' then ['\\', '\\']
  else if c = '\x27' then ['\\', '\x27']
  else [c]

/-- Python `repr` of a string: surrounding single quotes with escaping (the
quote-flipping special case of CPython for strings that contain a single
quote is not needed for the strings considered here). -/
def pyReprStr (s : String) : String :=
  String.mk ('\x27' :: s.data.foldr (fun c acc => escChar c ++ acc) ['\x27'])

mutual

/-- Python `repr` of a value (`None`, `True`/`False`, quoted strings,
bracketed comma-separated lists). -/
def pyRepr : PyVal → String
  | .vNone => "None"
  | .vBool true => "True"
  | .vBool false => "False"
  | .vStr s => pyReprStr s
  | .vList l => "[" ++ pyReprList l ++ "]"

/-- The comma-separated element renderings inside a Python list repr. -/
def pyReprList : List PyVal → String
  | [] => ""
  | [x] => pyRepr x
  | x :: y :: rest => pyRepr x ++ ", " ++ pyReprList (y :: rest)

end

/-- Python `str` of a value: identity on strings, `repr` otherwise (as used
by `str(new_spidermonkey)`). -/
def pyStr : PyVal → String
  | .vStr s => s
  | v => pyRepr v

/-- Does the character list `needle` occur as a prefix of `hay`? -/
def startsWithCh : List Char → List Char → Bool
  | [], _ => true
  | _ :: _, [] => false
  | a :: as, b :: bs => a = b && startsWithCh as bs

/-- Does the character list `needle` occur as a contiguous sublist of `hay`? -/
def containsCh (needle : List Char) : List Char → Bool
  | [] => startsWithCh needle []
  | c :: t => startsWithCh needle (c :: t) || containsCh needle t

/-- Python substring test `needle in hay` on strings. -/
def strContains (hay needle : String) : Bool :=
  containsCh needle.data hay.data

/-- `os.path.join(a, b)` for a relative second component. -/
def osJoin (a b : String) : String :=
  if a = "" then b
  else if a.data.getLast? = some '/' then a ++ b
  else a ++ "/" ++ b

/-- `os.path.dirname`: drop the final path component. -/
def osDirname (p : String) : String :=
  String.intercalate "/" (p.splitOn "/").dropLast

/-- `os.path.expanduser`: replace a leading `~` by the home directory. -/
def expanduser (home p : String) : String :=
  if p = "~" then home
  else if startsWithCh ['~', '/'] p.data then home ++ String.mk (p.data.drop 1)
  else p

/-- The recognized configuration keys: the `CONFIG_KEYS` tuple of
`parse_config_file`. -/
inductive ConfigKey where
  | NODE_JS | BINARYEN_ROOT | SPIDERMONKEY_ENGINE | V8_ENGINE | LLVM_ROOT
  | LLVM_ADD_VERSION | CLANG_ADD_VERSION | CLOSURE_COMPILER | JAVA
  | JS_ENGINE | JS_ENGINES | WASMER | WASMTIME | WASM_ENGINES
  | FROZEN_CACHE | CACHE | PORTS | COMPILER_WRAPPER
deriving DecidableEq

/-- The name of a configuration key as it appears in the source. -/
def keyName : ConfigKey → String
  | .NODE_JS => "NODE_JS"
  | .BINARYEN_ROOT => "BINARYEN_ROOT"
  | .SPIDERMONKEY_ENGINE => "SPIDERMONKEY_ENGINE"
  | .V8_ENGINE => "V8_ENGINE"
  | .LLVM_ROOT => "LLVM_ROOT"
  | .LLVM_ADD_VERSION => "LLVM_ADD_VERSION"
  | .CLANG_ADD_VERSION => "CLANG_ADD_VERSION"
  | .CLOSURE_COMPILER => "CLOSURE_COMPILER"
  | .JAVA => "JAVA"
  | .JS_ENGINE => "JS_ENGINE"
  | .JS_ENGINES => "JS_ENGINES"
  | .WASMER => "WASMER"
  | .WASMTIME => "WASMTIME"
  | .WASM_ENGINES => "WASM_ENGINES"
  | .FROZEN_CACHE => "FROZEN_CACHE"
  | .CACHE => "CACHE"
  | .PORTS => "PORTS"
  | .COMPILER_WRAPPER => "COMPILER_WRAPPER"

/-- The `CONFIG_KEYS` tuple, in source order. -/
def CONFIG_KEYS : List ConfigKey :=
  [.NODE_JS, .BINARYEN_ROOT, .SPIDERMONKEY_ENGINE, .V8_ENGINE, .LLVM_ROOT,
   .LLVM_ADD_VERSION, .CLANG_ADD_VERSION, .CLOSURE_COMPILER, .JAVA,
   .JS_ENGINE, .JS_ENGINES, .WASMER, .WASMTIME, .WASM_ENGINES,
   .FROZEN_CACHE, .CACHE, .PORTS, .COMPILER_WRAPPER]

/-- The configuration module globals that `parse_config_file` can set
(one field per `CONFIG_KEYS` entry, named as in the source). -/
structure Globals where
  NODE_JS : PyVal
  BINARYEN_ROOT : PyVal
  SPIDERMONKEY_ENGINE : PyVal
  V8_ENGINE : PyVal
  LLVM_ROOT : PyVal
  LLVM_ADD_VERSION : PyVal
  CLANG_ADD_VERSION : PyVal
  CLOSURE_COMPILER : PyVal
  JAVA : PyVal
  JS_ENGINE : PyVal
  JS_ENGINES : PyVal
  WASMER : PyVal
  WASMTIME : PyVal
  WASM_ENGINES : PyVal
  FROZEN_CACHE : PyVal
  CACHE : PyVal
  PORTS : PyVal
  COMPILER_WRAPPER : PyVal
deriving DecidableEq

/-- Read the global bound to a configuration key (`globals()[key]`). -/
def Globals.get (g : Globals) : ConfigKey → PyVal
  | .NODE_JS => g.NODE_JS
  | .BINARYEN_ROOT => g.BINARYEN_ROOT
  | .SPIDERMONKEY_ENGINE => g.SPIDERMONKEY_ENGINE
  | .V8_ENGINE => g.V8_ENGINE
  | .LLVM_ROOT => g.LLVM_ROOT
  | .LLVM_ADD_VERSION => g.LLVM_ADD_VERSION
  | .CLANG_ADD_VERSION => g.CLANG_ADD_VERSION
  | .CLOSURE_COMPILER => g.CLOSURE_COMPILER
  | .JAVA => g.JAVA
  | .JS_ENGINE => g.JS_ENGINE
  | .JS_ENGINES => g.JS_ENGINES
  | .WASMER => g.WASMER
  | .WASMTIME => g.WASMTIME
  | .WASM_ENGINES => g.WASM_ENGINES
  | .FROZEN_CACHE => g.FROZEN_CACHE
  | .CACHE => g.CACHE
  | .PORTS => g.PORTS
  | .COMPILER_WRAPPER => g.COMPILER_WRAPPER

/-- Assign the global bound to a configuration key (`globals()[key] = v`). -/
def Globals.set (g : Globals) (k : ConfigKey) (v : PyVal) : Globals :=
  match k with
  | .NODE_JS => { g with NODE_JS := v }
  | .BINARYEN_ROOT => { g with BINARYEN_ROOT := v }
  | .SPIDERMONKEY_ENGINE => { g with SPIDERMONKEY_ENGINE := v }
  | .V8_ENGINE => { g with V8_ENGINE := v }
  | .LLVM_ROOT => { g with LLVM_ROOT := v }
  | .LLVM_ADD_VERSION => { g with LLVM_ADD_VERSION := v }
  | .CLANG_ADD_VERSION => { g with CLANG_ADD_VERSION := v }
  | .CLOSURE_COMPILER => { g with CLOSURE_COMPILER := v }
  | .JAVA => { g with JAVA := v }
  | .JS_ENGINE => { g with JS_ENGINE := v }
  | .JS_ENGINES => { g with JS_ENGINES := v }
  | .WASMER => { g with WASMER := v }
  | .WASMTIME => { g with WASMTIME := v }
  | .WASM_ENGINES => { g with WASM_ENGINES := v }
  | .FROZEN_CACHE => { g with FROZEN_CACHE := v }
  | .CACHE => { g with CACHE := v }
  | .PORTS => { g with PORTS := v }
  | .COMPILER_WRAPPER => { g with COMPILER_WRAPPER := v }

/-- The module-level initial values of the config globals (lines 20-37 of
the source): everything `None` except `WASM_ENGINES = []`. -/
def initGlobals : Globals :=
  { NODE_JS := .vNone, BINARYEN_ROOT := .vNone, SPIDERMONKEY_ENGINE := .vNone,
    V8_ENGINE := .vNone, LLVM_ROOT := .vNone, LLVM_ADD_VERSION := .vNone,
    CLANG_ADD_VERSION := .vNone, CLOSURE_COMPILER := .vNone, JAVA := .vNone,
    JS_ENGINE := .vNone, JS_ENGINES := .vNone, WASMER := .vNone,
    WASMTIME := .vNone, WASM_ENGINES := .vList [], FROZEN_CACHE := .vNone,
    CACHE := .vNone, PORTS := .vNone, COMPILER_WRAPPER := .vNone }

/-- The environment of the process: `os.environ` as a partial map. -/
def Env : Type := String → Option String

/-- The raw key-to-value mapping produced by `exec`-evaluating the config
file, restricted to the recognized keys (`key in config` is `isSome`;
a key can be bound to `None`). -/
def RawConfig : Type := ConfigKey → Option PyVal

/-- One iteration of the override loop of `parse_config_file` (lines
136-144): the `EM_`-prefixed environment variable wins, an explicitly empty
override stores `None`, otherwise the evaluated binding, otherwise the
global is left alone. -/
def mergeStep (env : Env) (config : RawConfig) (g : Globals) (k : ConfigKey) : Globals :=
  match env ("EM_" ++ keyName k) with
  | some s => g.set k (if s = "" then .vNone else .vStr s)
  | none =>
    match config k with
    | some v => g.set k v
    | none => g

/-- The whole override loop: fold `mergeStep` over `CONFIG_KEYS`. -/
def mergeAll (env : Env) (config : RawConfig) (g : Globals) : Globals :=
  CONFIG_KEYS.foldl (mergeStep env config) g

/-- `fix_js_engine(old, new)` (lines 46-51): when `old` is `None` it
returns `None` and leaves `JS_ENGINES` alone; otherwise it rebuilds
`JS_ENGINES` replacing every element equal to `old` by `new` and returns
`new`.  Takes and returns the `JS_ENGINES` value explicitly; iteration can
raise (`none`) when `JS_ENGINES` is not iterable. -/
def fix_js_engine (old nw engines : PyVal) : Option (PyVal × PyVal) :=
  if old = .vNone then some (.vNone, engines)
  else
    (pyIter engines).map fun xs =>
      (nw, .vList (xs.map fun x => if x = old then nw else x))

/-- `os.getenv` result as a `PyVal` (`None` when unset). -/
def envVal : Option String → PyVal
  | some s => .vStr s
  | none => .vNone

/-- `if not JS_ENGINES: JS_ENGINES = [NODE_JS]` (lines 63-64). -/
def nzSeedEngines (g : Globals) : Globals :=
  if truthy g.JS_ENGINES then g else { g with JS_ENGINES := .vList [g.NODE_JS] }

/-- `if not JS_ENGINE: JS_ENGINE = JS_ENGINES[0]` (lines 65-66). -/
def nzSeedEngine (g : Globals) : Option Globals :=
  if truthy g.JS_ENGINE then some g
  else (pyIndex0 g.JS_ENGINES).map fun e => { g with JS_ENGINE := e }

/-- The spidermonkey fix-up (lines 69-73): when `SPIDERMONKEY_ENGINE` is
truthy, append `'-w'` unless the string form already contains it, then run
`fix_js_engine`.  The `new_spidermonkey += ['-w']` of the source is an
in-place `list.__iadd__` on the object `SPIDERMONKEY_ENGINE` itself, so by
the time `fix_js_engine(SPIDERMONKEY_ENGINE, new_spidermonkey)` runs both
arguments denote the already-flagged value: the comprehension replaces only
entries equal to the flagged value.  Entries of `JS_ENGINES` are modelled
as distinct objects (a source file writing independent literals); an entry
aliasing the engine object would additionally carry the flag through the
mutation itself. -/
def nzSpidermonkey (g : Globals) : Option Globals :=
  if truthy g.SPIDERMONKEY_ENGINE then
    match
      (if strContains (pyStr g.SPIDERMONKEY_ENGINE) "-w" then some g.SPIDERMONKEY_ENGINE
       else pyConcat g.SPIDERMONKEY_ENGINE (.vList [.vStr "-w"])) with
    | none => none
    | some nw =>
      match fix_js_engine nw nw g.JS_ENGINES with
      | none => none
      | some r => some { g with SPIDERMONKEY_ENGINE := r.1, JS_ENGINES := r.2 }
  else some g

/-- `NODE_JS = fix_js_engine(NODE_JS, listify(NODE_JS))` (line 74). -/
def nzFixNode (g : Globals) : Option Globals :=
  (fix_js_engine g.NODE_JS (listify g.NODE_JS) g.JS_ENGINES).map fun r =>
    { g with NODE_JS := r.1, JS_ENGINES := r.2 }

/-- `V8_ENGINE = fix_js_engine(V8_ENGINE, listify(V8_ENGINE))` (line 75). -/
def nzFixV8 (g : Globals) : Option Globals :=
  (fix_js_engine g.V8_ENGINE (listify g.V8_ENGINE) g.JS_ENGINES).map fun r =>
    { g with V8_ENGINE := r.1, JS_ENGINES := r.2 }

/-- `JS_ENGINE = fix_js_engine(JS_ENGINE, listify(JS_ENGINE))` (line 76). -/
def nzFixJsEngine (g : Globals) : Option Globals :=
  (fix_js_engine g.JS_ENGINE (listify g.JS_ENGINE) g.JS_ENGINES).map fun r =>
    { g with JS_ENGINE := r.1, JS_ENGINES := r.2 }

/-- `JS_ENGINES = [listify(engine) for engine in JS_ENGINES]` (line 77). -/
def nzListifyEngines (g : Globals) : Option Globals :=
  (pyIter g.JS_ENGINES).map fun xs => { g with JS_ENGINES := .vList (xs.map listify) }

/-- `WASM_ENGINES = [listify(engine) for engine in WASM_ENGINES]` (line 78). -/
def nzListifyWasm (g : Globals) : Option Globals :=
  (pyIter g.WASM_ENGINES).map fun xs => { g with WASM_ENGINES := .vList (xs.map listify) }

/-- `CLOSURE_COMPILER = listify(CLOSURE_COMPILER)` (line 79). -/
def nzClosure (g : Globals) : Globals :=
  { g with CLOSURE_COMPILER := listify g.CLOSURE_COMPILER }

/-- The cache derivation (lines 80-90): when `CACHE` is falsy, use
`path_from_root('cache')` if `FROZEN_CACHE` is truthy or the root is
writable, otherwise `~/.emscripten_cache` (the debug log is not modelled). -/
def nzCache (rootpath home : String) (rootWritable : Bool) (g : Globals) : Globals :=
  if truthy g.CACHE then g
  else if truthy g.FROZEN_CACHE || rootWritable then
    { g with CACHE := .vStr (osJoin rootpath "cache") }
  else
    { g with CACHE := .vStr (osJoin home ".emscripten_cache") }

/-- `if not PORTS: PORTS = os.path.join(CACHE, 'ports')` (lines 91-92);
`os.path.join` raises on a non-string `CACHE`. -/
def nzPorts (g : Globals) : Option Globals :=
  if truthy g.PORTS then some g
  else
    match g.CACHE with
    | .vStr s => some { g with PORTS := .vStr (osJoin s "ports") }
    | _ => none

/-- `if LLVM_ADD_VERSION is None: LLVM_ADD_VERSION = os.getenv(...)`
(lines 95-96). -/
def nzLlvmVersion (env : Env) (g : Globals) : Globals :=
  if g.LLVM_ADD_VERSION = .vNone then
    { g with LLVM_ADD_VERSION := envVal (env "LLVM_ADD_VERSION") }
  else g

/-- `if CLANG_ADD_VERSION is None: CLANG_ADD_VERSION = os.getenv(...)`
(lines 98-99). -/
def nzClangVersion (env : Env) (g : Globals) : Globals :=
  if g.CLANG_ADD_VERSION = .vNone then
    { g with CLANG_ADD_VERSION := envVal (env "CLANG_ADD_VERSION") }
  else g

/-- The version-suffix derivations (lines 95-99), in source order. -/
def nzVersions (env : Env) (g : Globals) : Globals :=
  nzClangVersion env (nzLlvmVersion env g)

/-- `normalize_config_settings` (lines 58-99), as the composition of its
statements in source order; `none` models an uncaught runtime error
(`TypeError` / `IndexError`). -/
def normalize_config_settings (rootpath home : String) (env : Env)
    (rootWritable : Bool) (g : Globals) : Option Globals := do
  let g ← nzSeedEngine (nzSeedEngines g)
  let g ← nzSpidermonkey g
  let g ← nzFixNode g
  let g ← nzFixV8 g
  let g ← nzFixJsEngine g
  let g ← nzListifyEngines g
  let g ← nzListifyWasm g
  let g := nzClosure g
  let g := nzCache rootpath home rootWritable g
  let g ← nzPorts g
  pure (nzVersions env g)

/-- A fatal error raised during configuration resolution
(`exit_with_error`), carrying the data interpolated into the message. -/
inductive ConfigError where
  | notDefined : String → String → ConfigError
  | emptyValue : String → String → ConfigError
  | typeError : ConfigError
deriving DecidableEq

/-- The mandatory keys checked at lines 160-164, in loop order. -/
def mandatoryKeys : List ConfigKey := [.LLVM_ROOT, .NODE_JS, .BINARYEN_ROOT]

/-- The mandatory-key loop (lines 159-164): for each key, first the raw
config mapping must bind it, then the merged global must be truthy. -/
def checkMandatory (emConfig : String) (config : RawConfig) (g : Globals) :
    List ConfigKey → Except ConfigError Unit
  | [] => .ok ()
  | k :: rest =>
    if (config k).isNone then .error (.notDefined (keyName k) emConfig)
    else if truthy (g.get k) = false then .error (.emptyValue (keyName k) emConfig)
    else checkMandatory emConfig config g rest

/-- `parse_config_file` (lines 102-169) from the point where the config
text has been evaluated into the raw mapping: run the override loop, the
mandatory-key checks (the legacy-variable loop only logs and is not
modelled), the stray `if not NODE_JS` check of lines 166-167, then
normalization. -/
def parse_config_file (emConfig rootpath home : String) (env : Env)
    (rootWritable : Bool) (config : RawConfig) : Except ConfigError Globals :=
  let g := mergeAll env config initGlobals
  match checkMandatory emConfig config g mandatoryKeys with
  | .error e => .error e
  | .ok _ =>
    if truthy g.NODE_JS = false then .error (.notDefined "NODE_JS" emConfig)
    else
      match normalize_config_settings rootpath home env rootWritable g with
      | some g2 => .ok g2
      | none => .error .typeError

/-- `list.index(a)`: position of the first occurrence. -/
def listIndexOf (a : String) : List String → Nat
  | [] => 0
  | x :: xs => if x = a then 0 else listIndexOf a xs + 1

/-- The source-locator block (lines 221-264): choose the config path from
the candidates in priority order, consuming `--em-config` and its argument
from `argv` when present, rejecting an inline (newline-containing) value,
and expanding a leading `~` in the final choice.  Returns the chosen path
together with the remaining argument list. -/
def locateConfig (rootpath home : String) (argv : List String) (env : Env)
    (pathExists : String → Bool) (rootWritable : Bool) :
    Except String (String × List String) :=
  let embedded_config := osJoin rootpath ".emscripten"
  let emsdk_embedded_config := osJoin (osDirname (osDirname rootpath)) ".emscripten"
  let user_home_config := osJoin home ".emscripten"
  let chosen : Except String (String × List String) :=
    if argv.contains "--em-config" then
      let i := listIndexOf "--em-config" argv
      if argv.length ≤ i + 1 then .error "--em-config must be followed by a filename"
      else .ok (argv.getD (i + 1) "", (argv.eraseIdx (i + 1)).eraseIdx i)
    else
      match env "EM_CONFIG" with
      | some v => .ok (v, argv)
      | none =>
        if pathExists embedded_config then .ok (embedded_config, argv)
        else if pathExists emsdk_embedded_config then .ok (emsdk_embedded_config, argv)
        else if pathExists user_home_config then .ok (user_home_config, argv)
        else if rootWritable then .ok (embedded_config, argv)
        else .ok (user_home_config, argv)
  match chosen with
  | .error e => .error e
  | .ok (p, args) =>
    if p.data.contains '\n' then
      .error "Inline EM_CONFIG data no longer supported.  Please use a config file."
    else .ok (expanduser home p, args)

/-- Python `a or b` for an optional string `a` (falsy `None` and `''` fall
through to `b`), as used for the auto-detected paths in `generate_config`. -/
def orStr (a : Option String) (b : String) : String :=
  match a with
  | some s => if s = "" then b else s
  | none => b

/-- `generate_config(path)` (lines 172-205): refuse when a file already
exists at `path`; otherwise strip the first three template lines,
substitute the three placeholders with repr-escaped auto-detected values,
and return the single write performed, as the pair of the target path and
the written text (the stderr summary is not modelled). -/
def generate_config (pathExists : String → Bool) (templateText rootpath : String)
    (which : String → Option String) (path : String) :
    Except String (String × String) :=
  if pathExists path then .error ("config file already exists: `" ++ path ++ "`")
  else
    let config_data := String.intercalate "\n" ((templateText.splitOn "\n").drop 3)
    let llvm_root := osDirname (orStr (which "llvm-dis") "/usr/bin/llvm-dis")
    let node := orStr (which "node") (orStr (which "nodejs") "node")
    let d1 := config_data.replace "\x27\x7b\x7b\x7b EMSCRIPTEN_ROOT \x7d\x7d\x7d\x27"
                (pyReprStr rootpath)
    let d2 := d1.replace "\x27\x7b\x7b\x7b LLVM_ROOT \x7d\x7d\x7d\x27" (pyReprStr llvm_root)
    let d3 := d2.replace "\x27\x7b\x7b\x7b NODE \x7d\x7d\x7d\x27" (pyReprStr node)
    .ok (path, d3)

/-- What the `--generate-config` top-level snippet (lines 268-270) does. -/
inductive GenOutcome where
  | exitZero : String → String → GenOutcome
  | fatal : String → GenOutcome
  | notRequested : GenOutcome
deriving DecidableEq

/-- The `--generate-config` handling at lines 268-270: when the flag is in
`argv`, run `generate_config` on the located config path and exit with
status zero (carrying the path and text written), or die on its error. -/
def generateConfigStep (argv : List String) (emConfig : String)
    (pathExists : String → Bool) (templateText rootpath : String)
    (which : String → Option String) : GenOutcome :=
  if argv.contains "--generate-config" then
    match generate_config pathExists templateText rootpath which emConfig with
    | .ok pt => .exitZero pt.1 pt.2
    | .error m => .fatal m
  else .notRequested

/-- The value a single key holds after the override loop, given the value
`old` it held before the loop: the per-key precedence of lines 136-144. -/
def mergedValue (env : Env) (config : RawConfig) (old : PyVal) (k : ConfigKey) : PyVal :=
  match env ("EM_" ++ keyName k) with
  | some s => if s = "" then .vNone else .vStr s
  | none =>
    match config k with
    | some v => v
    | none => old

/-- Is a value `None` or a list (the shape a normalized engine key has)? -/
def isNoneOrList : PyVal → Bool
  | .vNone => true
  | .vList _ => true
  | _ => false

/-- Is a value a list all of whose elements are strings? -/
def isListOfStrings : PyVal → Bool
  | .vList l => l.all fun x => match x with | .vStr _ => true | _ => false
  | _ => false

/-- A minimal raw mapping binding only the three mandatory keys. -/
def cfgMandatory : RawConfig := fun k =>
  match k with
  | .NODE_JS => some (.vStr "node")
  | .LLVM_ROOT => some (.vStr "/l")
  | .BINARYEN_ROOT => some (.vStr "/b")
  | _ => none

/-- The mandatory keys plus an explicit `JAVA` binding. -/
def cfgWithJava : RawConfig := fun k =>
  match k with
  | .JAVA => some (.vStr "/usr/bin/java")
  | k => cfgMandatory k

/-- The mandatory keys plus an explicit `CACHE` binding. -/
def cfgWithCache : RawConfig := fun k =>
  match k with
  | .CACHE => some (.vStr "/explicit-cache")
  | k => cfgMandatory k

/-- An environment whose only entry is `EM_JAVA=''`. -/
def envEmptyJava : Env := fun v => if v = "EM_JAVA" then some "" else none

/-- An environment whose only entry is `EM_CACHE=''`. -/
def envEmptyCache : Env := fun v => if v = "EM_CACHE" then some "" else none

/-- The merged globals shared by the fixtures above (the `JAVA` binding is
erased by `EM_JAVA=''`, the `CACHE` binding by `EM_CACHE=''`). -/
def mergedBasic : Globals :=
  { NODE_JS := .vStr "node", BINARYEN_ROOT := .vStr "/b", SPIDERMONKEY_ENGINE := .vNone,
    V8_ENGINE := .vNone, LLVM_ROOT := .vStr "/l", LLVM_ADD_VERSION := .vNone,
    CLANG_ADD_VERSION := .vNone, CLOSURE_COMPILER := .vNone, JAVA := .vNone,
    JS_ENGINE := .vNone, JS_ENGINES := .vNone, WASMER := .vNone, WASMTIME := .vNone,
    WASM_ENGINES := .vList [], FROZEN_CACHE := .vNone, CACHE := .vNone,
    PORTS := .vNone, COMPILER_WRAPPER := .vNone }

/-- `mergedBasic` after the `JS_ENGINES` seeding. -/
def basicStage1 : Globals := { mergedBasic with JS_ENGINES := .vList [.vStr "node"] }

/-- `basicStage1` after the `JS_ENGINE` seeding. -/
def basicStage2 : Globals := { basicStage1 with JS_ENGINE := .vStr "node" }

/-- `basicStage2` after the `NODE_JS` fix-up. -/
def basicStage3 : Globals :=
  { basicStage2 with NODE_JS := .vList [.vStr "node"],
                     JS_ENGINES := .vList [.vList [.vStr "node"]] }

/-- `basicStage3` after the `JS_ENGINE` fix-up. -/
def basicStage4 : Globals := { basicStage3 with JS_ENGINE := .vList [.vStr "node"] }

/-- `basicStage4` after the cache and ports derivations. -/
def basicStage5 : Globals :=
  { basicStage4 with CACHE := .vStr "/rt/cache", PORTS := .vStr "/rt/cache/ports" }

/-- The final resolved globals of the fixtures above. -/
def basicFinal : Globals := basicStage5

/-- The mandatory keys plus an explicit `JS_ENGINE` binding. -/
def cfgWithJsEngine : RawConfig := fun k =>
  match k with
  | .JS_ENGINE => some (.vStr "d8")
  | k => cfgMandatory k

/-- The merged globals for `cfgWithJsEngine` under an empty environment. -/
def mergedD8 : Globals := { mergedBasic with JS_ENGINE := .vStr "d8" }

/-- `mergedD8` after the `JS_ENGINES` seeding (the explicit `JS_ENGINE`
survives). -/
def d8Stage1 : Globals := { mergedD8 with JS_ENGINES := .vList [.vStr "node"] }

/-- `d8Stage1` after the `NODE_JS` fix-up. -/
def d8Stage2 : Globals :=
  { d8Stage1 with NODE_JS := .vList [.vStr "node"],
                  JS_ENGINES := .vList [.vList [.vStr "node"]] }

/-- `d8Stage2` after the `JS_ENGINE` fix-up. -/
def d8Stage3 : Globals := { d8Stage2 with JS_ENGINE := .vList [.vStr "d8"] }

/-- The final resolved globals for `cfgWithJsEngine`. -/
def d8Final : Globals :=
  { d8Stage3 with CACHE := .vStr "/rt/cache", PORTS := .vStr "/rt/cache/ports" }

/-- The mandatory keys plus a spidermonkey engine and an explicit engines
list that mentions it. -/
def cfgWithSm : RawConfig := fun k =>
  match k with
  | .SPIDERMONKEY_ENGINE => some (.vList [.vStr "/sm"])
  | .JS_ENGINES => some (.vList [.vStr "node", .vList [.vStr "/sm"]])
  | k => cfgMandatory k

/-- The merged globals for `cfgWithSm` under an empty environment. -/
def smMerged : Globals :=
  { mergedBasic with SPIDERMONKEY_ENGINE := .vList [.vStr "/sm"],
                     JS_ENGINES := .vList [.vStr "node", .vList [.vStr "/sm"]] }

/-- `smMerged` after the `JS_ENGINE` seeding. -/
def smStage1 : Globals := { smMerged with JS_ENGINE := .vStr "node" }

/-- `smStage1` after the spidermonkey fix-up: the engine itself is flagged
by the in-place append, but the value-equal `JS_ENGINES` entry is a
distinct object and survives unflagged. -/
def smStage2 : Globals :=
  { smStage1 with SPIDERMONKEY_ENGINE := .vList [.vStr "/sm", .vStr "-w"] }

/-- `smStage2` after the `NODE_JS` fix-up. -/
def smStage3 : Globals :=
  { smStage2 with NODE_JS := .vList [.vStr "node"],
                  JS_ENGINES := .vList [.vList [.vStr "node"],
                    .vList [.vStr "/sm"]] }

/-- `smStage3` after the `JS_ENGINE` fix-up. -/
def smStage4 : Globals := { smStage3 with JS_ENGINE := .vList [.vStr "node"] }

/-- The final resolved globals for `cfgWithSm`. -/
def smFinal : Globals :=
  { smStage4 with CACHE := .vStr "/rt/cache", PORTS := .vStr "/rt/cache/ports" }

/-- The mandatory keys plus a spidermonkey engine configured as a bare
string that already contains `-w`. -/
def cfgWithSmStr : RawConfig := fun k =>
  match k with
  | .SPIDERMONKEY_ENGINE => some (.vStr "/opt/sm-wrap")
  | k => cfgMandatory k

/-- The merged globals for `cfgWithSmStr` under an empty environment. -/
def smStrMerged : Globals :=
  { mergedBasic with SPIDERMONKEY_ENGINE := .vStr "/opt/sm-wrap" }

/-- The stages of `cfgWithSmStr` mirror the basic fixture with the
spidermonkey scalar carried along unchanged. -/
def smStrStage1 : Globals :=
  { basicStage1 with SPIDERMONKEY_ENGINE := .vStr "/opt/sm-wrap" }

def smStrStage2 : Globals :=
  { basicStage2 with SPIDERMONKEY_ENGINE := .vStr "/opt/sm-wrap" }

def smStrStage3 : Globals :=
  { basicStage3 with SPIDERMONKEY_ENGINE := .vStr "/opt/sm-wrap" }

def smStrStage4 : Globals :=
  { basicStage4 with SPIDERMONKEY_ENGINE := .vStr "/opt/sm-wrap" }

/-- The final resolved globals for `cfgWithSmStr`: the spidermonkey engine
stays a bare string. -/
def smStrFinal : Globals :=
  { basicFinal with SPIDERMONKEY_ENGINE := .vStr "/opt/sm-wrap" }

/-!  Theorems.  -/

theorem Globals.get_set_same (g : Globals) (k : ConfigKey) (v : PyVal) :
    (g.set k v).get k = v := by
  cases k <;> rfl

theorem Globals.get_set_ne (g : Globals) (v : PyVal) {k k' : ConfigKey} (h : k ≠ k') :
    (g.set k' v).get k = g.get k := by
  cases k' <;> cases k <;> first | rfl | exact absurd rfl h

theorem mergeStep_get (env : Env) (config : RawConfig) (g : Globals) (k k' : ConfigKey) :
    (mergeStep env config g k').get k =
      if k = k' then mergedValue env config (g.get k) k else g.get k := by
  by_cases hk : k = k'
  · subst hk
    simp only [if_pos rfl]
    unfold mergeStep mergedValue
    cases henv : env ("EM_" ++ keyName k) with
    | some s => simp [Globals.get_set_same]
    | none =>
      cases hc : config k with
      | some v => simp [Globals.get_set_same]
      | none => rfl
  · simp only [if_neg hk]
    unfold mergeStep
    cases henv : env ("EM_" ++ keyName k') with
    | some s => exact Globals.get_set_ne g _ hk
    | none =>
      cases hc : config k' with
      | some v => exact Globals.get_set_ne g _ hk
      | none => rfl

theorem mergedValue_idem (env : Env) (config : RawConfig) (old : PyVal) (k : ConfigKey) :
    mergedValue env config (mergedValue env config old k) k =
      mergedValue env config old k := by
  unfold mergedValue
  cases env ("EM_" ++ keyName k) with
  | some s => rfl
  | none => cases config k <;> rfl

theorem foldl_mergeStep_get (env : Env) (config : RawConfig) (l : List ConfigKey)
    (g : Globals) (k : ConfigKey) :
    (l.foldl (mergeStep env config) g).get k =
      if k ∈ l then mergedValue env config (g.get k) k else g.get k := by
  induction l generalizing g with
  | nil => simp
  | cons k' rest ih =>
    simp only [List.foldl_cons, List.mem_cons]
    rw [ih, mergeStep_get]
    by_cases hk : k = k'
    · subst hk
      by_cases hmem : k ∈ rest <;> simp [hmem, mergedValue_idem]
    · by_cases hmem : k ∈ rest <;> simp [hmem, hk]

theorem mem_CONFIG_KEYS (k : ConfigKey) : k ∈ CONFIG_KEYS := by
  cases k <;> simp [CONFIG_KEYS]

/-- The override loop, characterized per key. -/
theorem mergeAll_get (env : Env) (config : RawConfig) (k : ConfigKey) :
    (mergeAll env config initGlobals).get k =
      mergedValue env config (initGlobals.get k) k := by
  unfold mergeAll
  rw [foldl_mergeStep_get, if_pos (mem_CONFIG_KEYS k)]

/-- C10: a non-empty `EM_`-prefixed override is stored verbatim as a single
string at merge time — no parsing, splitting or listification — for every
recognized key, including the list-valued ones. -/
theorem em_override_is_verbatim_string (env : Env) (config : RawConfig)
    (k : ConfigKey) (s : String) (hs : env ("EM_" ++ keyName k) = some s)
    (hne : s ≠ "") :
    (mergeAll env config initGlobals).get k = .vStr s := by
  rw [mergeAll_get]
  unfold mergedValue
  rw [hs]
  simp [hne]

/-- Witness for C10: the list-of-lists key `JS_ENGINES` overridden through
`EM_JS_ENGINES` holds the raw string after the merge. -/
theorem em_override_is_verbatim_string_witness :
    (mergeAll (fun v => if v = "EM_JS_ENGINES" then some "node --x" else none)
        (fun _ => some (.vList [.vList [.vStr "a"]])) initGlobals).get .JS_ENGINES =
      .vStr "node --x" :=
  em_override_is_verbatim_string _ _ .JS_ENGINES "node --x" (by decide) (by decide)

/-! Frame lemmas: which globals each normalization statement leaves alone. -/

theorem nzSeedEngines_get (g : Globals) {k : ConfigKey} (h : k ≠ .JS_ENGINES) :
    (nzSeedEngines g).get k = g.get k := by
  unfold nzSeedEngines
  split
  · rfl
  · cases k <;> first | rfl | exact absurd rfl h

theorem nzSeedEngine_get {g g' : Globals} (hs : nzSeedEngine g = some g')
    {k : ConfigKey} (h : k ≠ .JS_ENGINE) : g'.get k = g.get k := by
  unfold nzSeedEngine at hs
  split at hs
  · cases hs; rfl
  · rcases Option.map_eq_some'.mp hs with ⟨e, _, he⟩
    subst he
    cases k <;> first | rfl | exact absurd rfl h

theorem nzSpidermonkey_get {g g' : Globals} (hs : nzSpidermonkey g = some g')
    {k : ConfigKey} (h1 : k ≠ .SPIDERMONKEY_ENGINE) (h2 : k ≠ .JS_ENGINES) :
    g'.get k = g.get k := by
  unfold nzSpidermonkey at hs
  split at hs
  · split at hs
    · cases hs
    · split at hs
      · cases hs
      · cases hs
        cases k <;> first | rfl | exact absurd rfl h1 | exact absurd rfl h2
  · cases hs; rfl

theorem nzFixNode_get {g g' : Globals} (hs : nzFixNode g = some g')
    {k : ConfigKey} (h1 : k ≠ .NODE_JS) (h2 : k ≠ .JS_ENGINES) :
    g'.get k = g.get k := by
  unfold nzFixNode at hs
  rcases Option.map_eq_some'.mp hs with ⟨r, _, hg⟩
  subst hg
  cases k <;> first | rfl | exact absurd rfl h1 | exact absurd rfl h2

theorem nzFixV8_get {g g' : Globals} (hs : nzFixV8 g = some g')
    {k : ConfigKey} (h1 : k ≠ .V8_ENGINE) (h2 : k ≠ .JS_ENGINES) :
    g'.get k = g.get k := by
  unfold nzFixV8 at hs
  rcases Option.map_eq_some'.mp hs with ⟨r, _, hg⟩
  subst hg
  cases k <;> first | rfl | exact absurd rfl h1 | exact absurd rfl h2

theorem nzFixJsEngine_get {g g' : Globals} (hs : nzFixJsEngine g = some g')
    {k : ConfigKey} (h1 : k ≠ .JS_ENGINE) (h2 : k ≠ .JS_ENGINES) :
    g'.get k = g.get k := by
  unfold nzFixJsEngine at hs
  rcases Option.map_eq_some'.mp hs with ⟨r, _, hg⟩
  subst hg
  cases k <;> first | rfl | exact absurd rfl h1 | exact absurd rfl h2

theorem nzListifyEngines_get {g g' : Globals} (hs : nzListifyEngines g = some g')
    {k : ConfigKey} (h : k ≠ .JS_ENGINES) : g'.get k = g.get k := by
  unfold nzListifyEngines at hs
  rcases Option.map_eq_some'.mp hs with ⟨xs, _, hg⟩
  subst hg
  cases k <;> first | rfl | exact absurd rfl h

theorem nzListifyWasm_get {g g' : Globals} (hs : nzListifyWasm g = some g')
    {k : ConfigKey} (h : k ≠ .WASM_ENGINES) : g'.get k = g.get k := by
  unfold nzListifyWasm at hs
  rcases Option.map_eq_some'.mp hs with ⟨xs, _, hg⟩
  subst hg
  cases k <;> first | rfl | exact absurd rfl h

theorem nzClosure_get (g : Globals) {k : ConfigKey} (h : k ≠ .CLOSURE_COMPILER) :
    (nzClosure g).get k = g.get k := by
  unfold nzClosure
  cases k <;> first | rfl | exact absurd rfl h

theorem nzCache_get (rootpath home : String) (w : Bool) (g : Globals)
    {k : ConfigKey} (h : k ≠ .CACHE) :
    (nzCache rootpath home w g).get k = g.get k := by
  unfold nzCache
  split
  · rfl
  · split <;> (cases k <;> first | rfl | exact absurd rfl h)

theorem nzPorts_get {g g' : Globals} (hs : nzPorts g = some g')
    {k : ConfigKey} (h : k ≠ .PORTS) : g'.get k = g.get k := by
  unfold nzPorts at hs
  split at hs
  · cases hs; rfl
  · split at hs
    · cases hs
      cases k <;> first | rfl | exact absurd rfl h
    · cases hs

theorem nzLlvmVersion_get (env : Env) (g : Globals) {k : ConfigKey}
    (h : k ≠ .LLVM_ADD_VERSION) : (nzLlvmVersion env g).get k = g.get k := by
  unfold nzLlvmVersion
  split
  · cases k <;> first | rfl | exact absurd rfl h
  · rfl

theorem nzClangVersion_get (env : Env) (g : Globals) {k : ConfigKey}
    (h : k ≠ .CLANG_ADD_VERSION) : (nzClangVersion env g).get k = g.get k := by
  unfold nzClangVersion
  split
  · cases k <;> first | rfl | exact absurd rfl h
  · rfl

theorem nzVersions_get (env : Env) (g : Globals) {k : ConfigKey}
    (h1 : k ≠ .LLVM_ADD_VERSION) (h2 : k ≠ .CLANG_ADD_VERSION) :
    (nzVersions env g).get k = g.get k := by
  unfold nzVersions
  rw [nzClangVersion_get env _ h2, nzLlvmVersion_get env g h1]

/-- `normalize_config_settings` success decomposed into its statements. -/
theorem normalize_decomp {rp hm : String} {env : Env} {w : Bool} {g gfin : Globals}
    (h : normalize_config_settings rp hm env w g = some gfin) :
    ∃ g2 g3 g4 g5 g6 g7 g8 g11,
      nzSeedEngine (nzSeedEngines g) = some g2 ∧
      nzSpidermonkey g2 = some g3 ∧
      nzFixNode g3 = some g4 ∧
      nzFixV8 g4 = some g5 ∧
      nzFixJsEngine g5 = some g6 ∧
      nzListifyEngines g6 = some g7 ∧
      nzListifyWasm g7 = some g8 ∧
      nzPorts (nzCache rp hm w (nzClosure g8)) = some g11 ∧
      gfin = nzVersions env g11 := by
  simp only [normalize_config_settings, bind, Option.bind_eq_some, Option.pure_def,
    Option.some.injEq] at h
  obtain ⟨g2, h2, g3, h3, g4, h4, g5, h5, g6, h6, g7, h7, g8, h8, g11, h11, hfin⟩ := h
  exact ⟨g2, g3, g4, g5, g6, g7, g8, g11, h2, h3, h4, h5, h6, h7, h8, h11, hfin.symm⟩

/-- `parse_config_file` success decomposed. -/
theorem parse_ok_decomp {emC rp hm : String} {env : Env} {w : Bool}
    {config : RawConfig} {gfin : Globals}
    (h : parse_config_file emC rp hm env w config = .ok gfin) :
    checkMandatory emC config (mergeAll env config initGlobals) mandatoryKeys = .ok () ∧
    truthy (mergeAll env config initGlobals).NODE_JS = true ∧
    normalize_config_settings rp hm env w (mergeAll env config initGlobals) = some gfin := by
  simp only [parse_config_file] at h
  split at h
  · cases h
  · rename_i u hc
    cases u
    split at h
    · cases h
    · rename_i hnode
      split at h
      · rename_i g2 hn
        cases h
        exact ⟨hc, by simpa using hnode, hn⟩
      · cases h

theorem checkMandatory_error_of_bad {c : String} {config : RawConfig} {g : Globals}
    (l : List ConfigKey) (k : ConfigKey) (hk : k ∈ l)
    (hbad : config k = none ∨ truthy (g.get k) = false) :
    ∃ k', k' ∈ l ∧ (config k' = none ∨ truthy (g.get k') = false) ∧
      (checkMandatory c config g l = .error (.notDefined (keyName k') c) ∨
       checkMandatory c config g l = .error (.emptyValue (keyName k') c)) := by
  induction l with
  | nil => cases hk
  | cons k0 rest ih =>
    by_cases hc0 : config k0 = none
    · refine ⟨k0, List.mem_cons_self k0 rest, .inl hc0, .inl ?_⟩
      simp [checkMandatory, Option.isNone_iff_eq_none, hc0]
    · by_cases ht0 : truthy (g.get k0) = false
      · refine ⟨k0, List.mem_cons_self k0 rest, .inr ht0, .inr ?_⟩
        simp [checkMandatory, Option.isNone_iff_eq_none, hc0, ht0]
      · have hk' : k ∈ rest := by
          rcases List.mem_cons.mp hk with h | h
          · subst h
            rcases hbad with hb | hb
            · exact absurd hb hc0
            · exact absurd hb ht0
          · exact h
        obtain ⟨k', hmem, hbad', hres⟩ := ih hk'
        refine ⟨k', List.mem_cons_of_mem _ hmem, hbad', ?_⟩
        have heq : checkMandatory c config g (k0 :: rest) =
            checkMandatory c config g rest := by
          simp [checkMandatory, Option.isNone_iff_eq_none, hc0, ht0]
        rw [heq]
        exact hres

theorem checkMandatory_ok_of_good {emC : String} {config : RawConfig} {g : Globals}
    (l : List ConfigKey)
    (hgood : ∀ k, k ∈ l → (config k).isSome ∧ truthy (g.get k) = true) :
    checkMandatory emC config g l = .ok () := by
  induction l with
  | nil => rfl
  | cons k0 rest ih =>
    obtain ⟨h1, h2⟩ := hgood k0 (List.mem_cons_self k0 rest)
    cases hc : config k0 with
    | none => rw [hc] at h1; cases h1
    | some v =>
      have hrest := ih fun k hk => hgood k (List.mem_cons_of_mem _ hk)
      simp [checkMandatory, hc, h2, hrest]

/-- C2: if any of the three mandatory keys `LLVM_ROOT`, `NODE_JS`,
`BINARYEN_ROOT` is absent from the raw evaluated mapping or its merged
value is falsy, resolution fails with an error naming an offending key and
the config path (so normalization never runs); conversely, when all three
are bound with truthy merged values, the mandatory-key check passes. -/
theorem mandatory_key_check (emC rp hm : String) (env : Env) (w : Bool)
    (config : RawConfig) :
    ((∃ k, k ∈ mandatoryKeys ∧
        (config k = none ∨ truthy ((mergeAll env config initGlobals).get k) = false)) →
      ∃ k, k ∈ mandatoryKeys ∧
        (config k = none ∨ truthy ((mergeAll env config initGlobals).get k) = false) ∧
        (parse_config_file emC rp hm env w config = .error (.notDefined (keyName k) emC) ∨
         parse_config_file emC rp hm env w config = .error (.emptyValue (keyName k) emC)))
    ∧ ((∀ k, k ∈ mandatoryKeys →
          (config k).isSome ∧ truthy ((mergeAll env config initGlobals).get k) = true) →
        checkMandatory emC config (mergeAll env config initGlobals) mandatoryKeys = .ok ()) := by
  constructor
  · rintro ⟨k, hk, hbad⟩
    obtain ⟨k', hmem, hbad', hres⟩ :=
      checkMandatory_error_of_bad (c := emC) (g := mergeAll env config initGlobals)
        mandatoryKeys k hk hbad
    refine ⟨k', hmem, hbad', ?_⟩
    rcases hres with hres | hres
    · exact .inl (by simp [parse_config_file, hres])
    · exact .inr (by simp [parse_config_file, hres])
  · exact checkMandatory_ok_of_good mandatoryKeys

/-- Witness for C2: a config that omits `LLVM_ROOT` fails naming it. -/
theorem mandatory_key_check_witness :
    ∃ k, k ∈ mandatoryKeys ∧
      ((fun q => if q = ConfigKey.LLVM_ROOT then none else some (PyVal.vStr "x")) k = none ∨
        truthy ((mergeAll (fun _ => none)
          (fun q => if q = ConfigKey.LLVM_ROOT then none else some (PyVal.vStr "x"))
          initGlobals).get k) = false) ∧
      (parse_config_file "cfg" "/rt" "/h" (fun _ => none) true
          (fun q => if q = ConfigKey.LLVM_ROOT then none else some (PyVal.vStr "x")) =
            .error (.notDefined (keyName k) "cfg") ∨
       parse_config_file "cfg" "/rt" "/h" (fun _ => none) true
          (fun q => if q = ConfigKey.LLVM_ROOT then none else some (PyVal.vStr "x")) =
            .error (.emptyValue (keyName k) "cfg")) :=
  (mandatory_key_check "cfg" "/rt" "/h" (fun _ => none) true
      (fun q => if q = ConfigKey.LLVM_ROOT then none else some (PyVal.vStr "x"))).1
    ⟨.LLVM_ROOT, by decide, .inl (by decide)⟩

/-- C8: resolution is a pure function of the argument list, the
environment, the filesystem answers and the evaluated source mapping:
running it twice on the same inputs yields identical results, both for the
locator and for the parse/merge/normalize pipeline. -/
theorem resolution_deterministic (emC rootpath home : String) (argv : List String)
    (env : Env) (pathExists : String → Bool) (w : Bool) (config : RawConfig) :
    locateConfig rootpath home argv env pathExists w =
        locateConfig rootpath home argv env pathExists w ∧
      parse_config_file emC rootpath home env w config =
        parse_config_file emC rootpath home env w config :=
  ⟨rfl, rfl⟩

/-- C6: the source locator selects the candidates in the fixed priority
order (`--em-config` argument, `EM_CONFIG` environment variable, the
root-adjacent default if present, the path two levels above the root if
present, the home default if present, then writability-dependent default),
removes the flag and its argument from the argument list, and raises a
usage error when the flag has no following argument. -/
theorem locator_priority_order (rootpath home : String) (argv : List String)
    (env : Env) (pathExists : String → Bool) (w : Bool) :
    (argv.contains "--em-config" = true →
      argv.length ≤ listIndexOf "--em-config" argv + 1 →
      locateConfig rootpath home argv env pathExists w =
        .error "--em-config must be followed by a filename")
    ∧ (∀ i p, argv.contains "--em-config" = true →
        listIndexOf "--em-config" argv = i → i + 1 < argv.length →
        argv.getD (i + 1) "" = p → '\n' ∉ p.data →
        locateConfig rootpath home argv env pathExists w =
          .ok (expanduser home p, (argv.eraseIdx (i + 1)).eraseIdx i))
    ∧ (∀ p, argv.contains "--em-config" = false → env "EM_CONFIG" = some p →
        '\n' ∉ p.data →
        locateConfig rootpath home argv env pathExists w =
          .ok (expanduser home p, argv))
    ∧ (∀ q, argv.contains "--em-config" = false → env "EM_CONFIG" = none →
        q = (if pathExists (osJoin rootpath ".emscripten") then
               osJoin rootpath ".emscripten"
             else if pathExists (osJoin (osDirname (osDirname rootpath)) ".emscripten") then
               osJoin (osDirname (osDirname rootpath)) ".emscripten"
             else if pathExists (osJoin home ".emscripten") then
               osJoin home ".emscripten"
             else if w then osJoin rootpath ".emscripten"
             else osJoin home ".emscripten") →
        '\n' ∉ q.data →
        locateConfig rootpath home argv env pathExists w =
          .ok (expanduser home q, argv)) := by
  refine ⟨?_, ?_, ?_, ?_⟩
  · intro hc hlen
    simp only [locateConfig, hc, if_true]
    rw [if_pos hlen]
  · intro i p hc hi hlen hp hnl
    subst hi
    subst hp
    simp only [locateConfig, hc, if_true]
    rw [if_neg (by omega)]
    simp only [List.getD, List.get?_eq_getElem?] at hnl
    simp [hnl, List.getD]
  · intro p hc henv hnl
    simp only [locateConfig, hc, Bool.false_eq_true, if_false, henv]
    simp [hnl]
  · intro q hc henv hq hnl
    simp only [locateConfig, hc, Bool.false_eq_true, if_false, henv]
    by_cases h1 : pathExists (osJoin rootpath ".emscripten") = true
    · simp only [h1, if_true]
      rw [h1, if_pos rfl] at hq
      subst hq
      simp [hnl]
    · rw [Bool.not_eq_true] at h1
      by_cases h2 : pathExists (osJoin (osDirname (osDirname rootpath)) ".emscripten") = true
      · simp only [h1, h2, Bool.false_eq_true, if_false, if_true]
        rw [h1, h2] at hq
        simp only [Bool.false_eq_true, if_false, if_true] at hq
        subst hq
        simp [hnl]
      · rw [Bool.not_eq_true] at h2
        by_cases h3 : pathExists (osJoin home ".emscripten") = true
        · simp only [h1, h2, h3, Bool.false_eq_true, if_false, if_true]
          rw [h1, h2, h3] at hq
          simp only [Bool.false_eq_true, if_false, if_true] at hq
          subst hq
          simp [hnl]
        · rw [Bool.not_eq_true] at h3
          rw [h1, h2, h3] at hq
          simp only [Bool.false_eq_true, if_false] at hq
          cases hw : w with
          | true =>
            simp only [h1, h2, h3, hw, Bool.false_eq_true, if_false, if_true]
            rw [hw] at hq
            simp only [if_true] at hq
            subst hq
            simp [hnl]
          | false =>
            simp only [h1, h2, h3, hw, Bool.false_eq_true, if_false]
            rw [hw] at hq
            simp only [Bool.false_eq_true, if_false] at hq
            subst hq
            simp [hnl]

/-- Witness for C6: the flag and its argument are consumed and the
remaining argument list no longer mentions them. -/
theorem locator_priority_order_witness :
    locateConfig "/r" "/h" ["emcc", "--em-config", "conf.py", "a.c"] (fun _ => none)
        (fun _ => false) true =
      .ok ("conf.py", ["emcc", "a.c"]) := by
  have h := (locator_priority_order "/r" "/h" ["emcc", "--em-config", "conf.py", "a.c"]
      (fun _ => none) (fun _ => false) true).2.1 1 "conf.py"
      (by decide) (by decide) (by decide) (by decide) (by decide)
  rw [h]
  rfl

/-- C9: the generator refuses (fatally, performing no write) whenever a
file already exists at the target path; and the `--generate-config` flag
leads to the new file being written and the process exiting with status
zero when the target is fresh. -/
theorem generator_refuses_existing (pathExists : String → Bool)
    (tmpl rootpath emC : String) (which : String → Option String)
    (argv : List String) :
    (∀ path, pathExists path = true →
      generate_config pathExists tmpl rootpath which path =
        .error ("config file already exists: `" ++ path ++ "`"))
    ∧ (argv.contains "--generate-config" = true → pathExists emC = false →
      ∃ text, generateConfigStep argv emC pathExists tmpl rootpath which =
        .exitZero emC text) := by
  constructor
  · intro path hp
    simp [generate_config, hp]
  · intro hflag hfresh
    refine ⟨?_, ?_⟩
    · exact (String.intercalate "\n" ((tmpl.splitOn "\n").drop 3)).replace
        "\x27\x7b\x7b\x7b EMSCRIPTEN_ROOT \x7d\x7d\x7d\x27" (pyReprStr rootpath)
        |>.replace "\x27\x7b\x7b\x7b LLVM_ROOT \x7d\x7d\x7d\x27"
          (pyReprStr (osDirname (orStr (which "llvm-dis") "/usr/bin/llvm-dis")))
        |>.replace "\x27\x7b\x7b\x7b NODE \x7d\x7d\x7d\x27"
          (pyReprStr (orStr (which "node") (orStr (which "nodejs") "node")))
    · have hmem : "--generate-config" ∈ argv := by simpa using hflag
      simp [generateConfigStep, generate_config, hflag, hfresh, hmem]

/-- Witness for C9: existing target refused; fresh target written with
exit status zero. -/
theorem generator_refuses_existing_witness :
    (generate_config (fun _ => true) "a\nb\nc\nX = 1" "/r"
        (fun _ => (none : Option String)) "/cfg" =
      .error "config file already exists: `/cfg`")
    ∧ ∃ text, generateConfigStep ["emcc", "--generate-config"] "/cfg2" (fun _ => false)
        "a\nb\nc\nX = 1" "/r" (fun _ => (none : Option String)) = .exitZero "/cfg2" text :=
  ⟨by
    have h := (generator_refuses_existing (fun _ => true) "a\nb\nc\nX = 1" "/r" "/cfg"
        (fun _ => (none : Option String)) []).1 "/cfg" rfl
    exact h,
   (generator_refuses_existing (fun _ => false) "a\nb\nc\nX = 1" "/r" "/cfg2"
      (fun _ => (none : Option String)) ["emcc", "--generate-config"]).2 (by decide) rfl⟩

/-- After a successful normalization, the keys untouched by the engine
fix-ups (steps before the cache/ports/version derivations) still hold
their merged values, and the tail of the pipeline is exposed. -/
theorem normalize_late_get {rp hm : String} {env : Env} {w : Bool} {g gfin : Globals}
    (h : normalize_config_settings rp hm env w g = some gfin) :
    ∃ g8 g11,
      (∀ k, k ≠ ConfigKey.JS_ENGINES → k ≠ ConfigKey.JS_ENGINE →
        k ≠ ConfigKey.SPIDERMONKEY_ENGINE → k ≠ ConfigKey.NODE_JS →
        k ≠ ConfigKey.V8_ENGINE → k ≠ ConfigKey.WASM_ENGINES →
        g8.get k = g.get k) ∧
      nzPorts (nzCache rp hm w (nzClosure g8)) = some g11 ∧
      gfin = nzVersions env g11 := by
  obtain ⟨g2, g3, g4, g5, g6, g7, g8, g11, h2, h3, h4, h5, h6, h7, h8, h11, hfin⟩ :=
    normalize_decomp h
  refine ⟨g8, g11, ?_, h11, hfin⟩
  intro k hJS hJE hSM hNJ hV8 hWM
  calc g8.get k = g7.get k := nzListifyWasm_get h8 hWM
    _ = g6.get k := nzListifyEngines_get h7 hJS
    _ = g5.get k := nzFixJsEngine_get h6 hJE hJS
    _ = g4.get k := nzFixV8_get h5 hV8 hJS
    _ = g3.get k := nzFixNode_get h4 hNJ hJS
    _ = g2.get k := nzSpidermonkey_get h3 hSM hJS
    _ = (nzSeedEngines g).get k := nzSeedEngine_get h2 hJE
    _ = g.get k := nzSeedEngines_get g hJS

/-- C7: when `CACHE` is falsy after the merge, its derived value is the
`cache` subpath of the toolchain root if `FROZEN_CACHE` is truthy or the
root is writable, else the home fallback; and a falsy `PORTS` becomes the
`ports` subdirectory of the derived cache directory. -/
theorem cache_ports_derivation {emC rp hm : String} {env : Env} {w : Bool}
    {config : RawConfig} {gfin : Globals}
    (h : parse_config_file emC rp hm env w config = .ok gfin)
    (hcache : truthy ((mergeAll env config initGlobals).get .CACHE) = false) :
    ((truthy ((mergeAll env config initGlobals).get .FROZEN_CACHE) || w) = true →
      gfin.get .CACHE = .vStr (osJoin rp "cache"))
    ∧ ((truthy ((mergeAll env config initGlobals).get .FROZEN_CACHE) || w) = false →
      gfin.get .CACHE = .vStr (osJoin hm ".emscripten_cache"))
    ∧ (truthy ((mergeAll env config initGlobals).get .PORTS) = false →
      ∃ c, gfin.get .CACHE = .vStr c ∧ gfin.get .PORTS = .vStr (osJoin c "ports")) := by
  obtain ⟨-, -, hn⟩ := parse_ok_decomp h
  obtain ⟨g8, g11, hfields, hports, hfin⟩ := normalize_late_get hn
  have hC : (nzClosure g8).CACHE = (mergeAll env config initGlobals).get .CACHE :=
    (nzClosure_get g8 (by decide)).trans
      (hfields .CACHE (by decide) (by decide) (by decide) (by decide) (by decide) (by decide))
  have hF : (nzClosure g8).FROZEN_CACHE =
      (mergeAll env config initGlobals).get .FROZEN_CACHE :=
    (nzClosure_get g8 (by decide)).trans
      (hfields .FROZEN_CACHE (by decide) (by decide) (by decide) (by decide) (by decide)
        (by decide))
  have hP : (nzClosure g8).PORTS = (mergeAll env config initGlobals).get .PORTS :=
    (nzClosure_get g8 (by decide)).trans
      (hfields .PORTS (by decide) (by decide) (by decide) (by decide) (by decide) (by decide))
  have hce : (nzCache rp hm w (nzClosure g8)).CACHE =
      (if (truthy ((mergeAll env config initGlobals).get .FROZEN_CACHE) || w) = true then
        PyVal.vStr (osJoin rp "cache")
      else PyVal.vStr (osJoin hm ".emscripten_cache")) := by
    unfold nzCache
    rw [hC, hcache]
    simp only [Bool.false_eq_true, if_false]
    rw [hF]
    by_cases hw : (truthy ((mergeAll env config initGlobals).get .FROZEN_CACHE) || w) = true
    · rw [hw]
      simp
    · rw [Bool.not_eq_true] at hw
      rw [hw]
      simp
  have hcp : (nzCache rp hm w (nzClosure g8)).PORTS =
      (mergeAll env config initGlobals).get .PORTS := by
    have := nzCache_get rp hm w (nzClosure g8) (k := .PORTS) (by decide)
    exact this.trans hP
  -- step through nzPorts
  have hg11C : g11.get .CACHE = (nzCache rp hm w (nzClosure g8)).CACHE :=
    nzPorts_get hports (by decide)
  have hfinC : gfin.get .CACHE = g11.get .CACHE := by
    rw [hfin]
    exact nzVersions_get env g11 (by decide) (by decide)
  have hfinP : gfin.get .PORTS = g11.get .PORTS := by
    rw [hfin]
    exact nzVersions_get env g11 (by decide) (by decide)
  refine ⟨?_, ?_, ?_⟩
  · intro hcond
    rw [hfinC, hg11C, hce, if_pos hcond]
  · intro hcond
    rw [hfinC, hg11C, hce, if_neg (by simp [hcond])]
  · intro hpfalse
    -- nzPorts takes its else branch and CACHE is a string either way
    rcases hcs : (nzCache rp hm w (nzClosure g8)).CACHE with _ | b | s | l
    · rw [hcs] at hce
      split at hce <;> cases hce
    · rw [hcs] at hce
      split at hce <;> cases hce
    · refine ⟨s, by rw [hfinC, hg11C, hcs], ?_⟩
      have : g11.get .PORTS = .vStr (osJoin s "ports") := by
        unfold nzPorts at hports
        rw [hcp, hpfalse] at hports
        simp only [Bool.false_eq_true, if_false] at hports
        rw [hcs] at hports
        cases hports
        exact rfl
      rw [hfinP, this]
    · rw [hcs] at hce
      split at hce <;> cases hce

/-! Characterization of the engine fix-up statements. -/

theorem fix_js_engine_fst {old nw engines : PyVal} {r : PyVal × PyVal}
    (h : fix_js_engine old nw engines = some r) :
    r.1 = if old = .vNone then .vNone else nw := by
  unfold fix_js_engine at h
  split at h
  · cases h
    simp_all
  · rcases Option.map_eq_some'.mp h with ⟨xs, _, hr⟩
    subst hr
    simp_all

theorem fix_js_engine_snd_none {nw engines : PyVal} {r : PyVal × PyVal}
    (h : fix_js_engine .vNone nw engines = some r) : r.2 = engines := by
  unfold fix_js_engine at h
  simp only [if_pos rfl] at h
  cases h
  rfl

theorem fix_js_engine_snd {old nw engines : PyVal} {r : PyVal × PyVal}
    (h : fix_js_engine old nw engines = some r) (hold : old ≠ .vNone) :
    ∃ xs, pyIter engines = some xs ∧
      r.2 = .vList (xs.map fun x => if x = old then nw else x) := by
  unfold fix_js_engine at h
  rw [if_neg hold] at h
  rcases Option.map_eq_some'.mp h with ⟨xs, hxs, hr⟩
  subst hr
  exact ⟨xs, hxs, rfl⟩

theorem nzSeedEngines_JS_ENGINES (g : Globals) :
    (nzSeedEngines g).JS_ENGINES =
      if truthy g.JS_ENGINES then g.JS_ENGINES else .vList [g.NODE_JS] := by
  unfold nzSeedEngines
  split <;> simp_all

theorem nzSeedEngine_JS_ENGINES {g g' : Globals} (h : nzSeedEngine g = some g') :
    g'.JS_ENGINES = g.JS_ENGINES :=
  nzSeedEngine_get h (k := .JS_ENGINES) (by decide)

theorem nzSeedEngine_char {g g' : Globals} (h : nzSeedEngine g = some g') :
    (truthy g.JS_ENGINE = true ∧ g' = g) ∨
      (truthy g.JS_ENGINE = false ∧
        ∃ e, pyIndex0 g.JS_ENGINES = some e ∧ g'.JS_ENGINE = e) := by
  unfold nzSeedEngine at h
  split at h
  · cases h
    left
    exact ⟨by assumption, rfl⟩
  · rcases Option.map_eq_some'.mp h with ⟨e, he, hg⟩
    subst hg
    right
    refine ⟨by simp_all, e, he, rfl⟩

theorem nzFixNode_char {g g' : Globals} (h : nzFixNode g = some g') :
    g'.NODE_JS = (if g.NODE_JS = .vNone then .vNone else listify g.NODE_JS) ∧
      ((g.NODE_JS = .vNone ∧ g'.JS_ENGINES = g.JS_ENGINES) ∨
       (g.NODE_JS ≠ .vNone ∧ ∃ xs, pyIter g.JS_ENGINES = some xs ∧
         g'.JS_ENGINES = .vList (xs.map fun x =>
           if x = g.NODE_JS then listify g.NODE_JS else x))) := by
  unfold nzFixNode at h
  rcases Option.map_eq_some'.mp h with ⟨r, hr, hg⟩
  subst hg
  constructor
  · exact fix_js_engine_fst hr
  · by_cases hn : g.NODE_JS = .vNone
    · left
      refine ⟨hn, ?_⟩
      show r.2 = g.JS_ENGINES
      rw [hn] at hr
      exact fix_js_engine_snd_none hr
    · right
      exact ⟨hn, fix_js_engine_snd hr hn⟩

theorem nzFixV8_char {g g' : Globals} (h : nzFixV8 g = some g') :
    g'.V8_ENGINE = (if g.V8_ENGINE = .vNone then .vNone else listify g.V8_ENGINE) ∧
      ((g.V8_ENGINE = .vNone ∧ g'.JS_ENGINES = g.JS_ENGINES) ∨
       (g.V8_ENGINE ≠ .vNone ∧ ∃ xs, pyIter g.JS_ENGINES = some xs ∧
         g'.JS_ENGINES = .vList (xs.map fun x =>
           if x = g.V8_ENGINE then listify g.V8_ENGINE else x))) := by
  unfold nzFixV8 at h
  rcases Option.map_eq_some'.mp h with ⟨r, hr, hg⟩
  subst hg
  constructor
  · exact fix_js_engine_fst hr
  · by_cases hn : g.V8_ENGINE = .vNone
    · left
      refine ⟨hn, ?_⟩
      show r.2 = g.JS_ENGINES
      rw [hn] at hr
      exact fix_js_engine_snd_none hr
    · right
      exact ⟨hn, fix_js_engine_snd hr hn⟩

theorem nzFixJsEngine_char {g g' : Globals} (h : nzFixJsEngine g = some g') :
    g'.JS_ENGINE = (if g.JS_ENGINE = .vNone then .vNone else listify g.JS_ENGINE) ∧
      ((g.JS_ENGINE = .vNone ∧ g'.JS_ENGINES = g.JS_ENGINES) ∨
       (g.JS_ENGINE ≠ .vNone ∧ ∃ xs, pyIter g.JS_ENGINES = some xs ∧
         g'.JS_ENGINES = .vList (xs.map fun x =>
           if x = g.JS_ENGINE then listify g.JS_ENGINE else x))) := by
  unfold nzFixJsEngine at h
  rcases Option.map_eq_some'.mp h with ⟨r, hr, hg⟩
  subst hg
  constructor
  · exact fix_js_engine_fst hr
  · by_cases hn : g.JS_ENGINE = .vNone
    · left
      refine ⟨hn, ?_⟩
      show r.2 = g.JS_ENGINES
      rw [hn] at hr
      exact fix_js_engine_snd_none hr
    · right
      exact ⟨hn, fix_js_engine_snd hr hn⟩

theorem nzListifyEngines_char {g g' : Globals} (h : nzListifyEngines g = some g') :
    ∃ xs, pyIter g.JS_ENGINES = some xs ∧
      g'.JS_ENGINES = .vList (xs.map listify) := by
  unfold nzListifyEngines at h
  rcases Option.map_eq_some'.mp h with ⟨xs, hxs, hg⟩
  subst hg
  exact ⟨xs, hxs, rfl⟩

theorem nzListifyWasm_char {g g' : Globals} (h : nzListifyWasm g = some g') :
    ∃ xs, pyIter g.WASM_ENGINES = some xs ∧
      g'.WASM_ENGINES = .vList (xs.map listify) := by
  unfold nzListifyWasm at h
  rcases Option.map_eq_some'.mp h with ⟨xs, hxs, hg⟩
  subst hg
  exact ⟨xs, hxs, rfl⟩

theorem nzSpidermonkey_skip {g g' : Globals} (h : nzSpidermonkey g = some g')
    (hsm : truthy g.SPIDERMONKEY_ENGINE = false) : g' = g := by
  unfold nzSpidermonkey at h
  rw [hsm] at h
  simp only [Bool.false_eq_true, if_false] at h
  cases h
  rfl

/-- The cache/ports/version tail of normalization leaves the other keys of
the state reached after the engine fix-ups alone. -/
theorem normalize_tail_get {env : Env} {rp hm : String} {w : Bool}
    {g8 g11 gfin : Globals}
    (hports : nzPorts (nzCache rp hm w (nzClosure g8)) = some g11)
    (hfin : gfin = nzVersions env g11) {k : ConfigKey}
    (h1 : k ≠ .CLOSURE_COMPILER) (h2 : k ≠ .CACHE) (h3 : k ≠ .PORTS)
    (h4 : k ≠ .LLVM_ADD_VERSION) (h5 : k ≠ .CLANG_ADD_VERSION) :
    gfin.get k = g8.get k := by
  calc gfin.get k = g11.get k := by rw [hfin]; exact nzVersions_get env g11 h4 h5
    _ = (nzCache rp hm w (nzClosure g8)).get k := nzPorts_get hports h3
    _ = (nzClosure g8).get k := nzCache_get rp hm w _ h2
    _ = g8.get k := nzClosure_get g8 h1

/-- Keys normalization never assigns keep their merged values. -/
theorem normalize_untouched_get {rp hm : String} {env : Env} {w : Bool}
    {g gfin : Globals} (h : normalize_config_settings rp hm env w g = some gfin)
    {k : ConfigKey}
    (hk : k = .BINARYEN_ROOT ∨ k = .LLVM_ROOT ∨ k = .JAVA ∨ k = .WASMER ∨
      k = .WASMTIME ∨ k = .FROZEN_CACHE ∨ k = .COMPILER_WRAPPER) :
    gfin.get k = g.get k := by
  obtain ⟨g8, g11, hfields, hports, hfin⟩ := normalize_late_get h
  rcases hk with rfl | rfl | rfl | rfl | rfl | rfl | rfl <;>
    exact (normalize_tail_get hports hfin (by decide) (by decide) (by decide)
        (by decide) (by decide)).trans
      (hfields _ (by decide) (by decide) (by decide) (by decide) (by decide) (by decide))

/-- A falsy merged `SPIDERMONKEY_ENGINE` passes through normalization
unchanged. -/
theorem normalize_spidermonkey_falsy {rp hm : String} {env : Env} {w : Bool}
    {g gfin : Globals} (h : normalize_config_settings rp hm env w g = some gfin)
    (hsm : truthy (g.get .SPIDERMONKEY_ENGINE) = false) :
    gfin.get .SPIDERMONKEY_ENGINE = g.get .SPIDERMONKEY_ENGINE := by
  obtain ⟨g2, g3, g4, g5, g6, g7, g8, g11, h2, h3, h4, h5, h6, h7, h8, hports, hfin⟩ :=
    normalize_decomp h
  have hg2 : g2.get .SPIDERMONKEY_ENGINE = g.get .SPIDERMONKEY_ENGINE :=
    (nzSeedEngine_get h2 (by decide)).trans (nzSeedEngines_get g (by decide))
  have hskip : g3 = g2 := nzSpidermonkey_skip h3 (by
    show truthy (g2.get .SPIDERMONKEY_ENGINE) = false
    rw [hg2]
    exact hsm)
  have hg8 : g8.get .SPIDERMONKEY_ENGINE = g3.get .SPIDERMONKEY_ENGINE :=
    (nzListifyWasm_get h8 (by decide)).trans
      ((nzListifyEngines_get h7 (by decide)).trans
        ((nzFixJsEngine_get h6 (by decide) (by decide)).trans
          ((nzFixV8_get h5 (by decide) (by decide)).trans
            (nzFixNode_get h4 (by decide) (by decide)))))
  calc gfin.get .SPIDERMONKEY_ENGINE
      = g8.get .SPIDERMONKEY_ENGINE :=
        normalize_tail_get hports hfin (by decide) (by decide) (by decide) (by decide)
          (by decide)
    _ = g3.get .SPIDERMONKEY_ENGINE := hg8
    _ = g2.get .SPIDERMONKEY_ENGINE := by rw [hskip]
    _ = g.get .SPIDERMONKEY_ENGINE := hg2

/-- The final `NODE_JS`: `None` stays `None`, anything else is listified. -/
theorem normalize_node_char {rp hm : String} {env : Env} {w : Bool}
    {g gfin : Globals} (h : normalize_config_settings rp hm env w g = some gfin) :
    gfin.get .NODE_JS =
      (if g.get .NODE_JS = .vNone then .vNone else listify (g.get .NODE_JS)) := by
  obtain ⟨g2, g3, g4, g5, g6, g7, g8, g11, h2, h3, h4, h5, h6, h7, h8, hports, hfin⟩ :=
    normalize_decomp h
  have hg3 : g3.get .NODE_JS = g.get .NODE_JS :=
    (nzSpidermonkey_get h3 (by decide) (by decide)).trans
      ((nzSeedEngine_get h2 (by decide)).trans (nzSeedEngines_get g (by decide)))
  have hchar : g4.get .NODE_JS =
      (if g3.get .NODE_JS = .vNone then .vNone else listify (g3.get .NODE_JS)) :=
    (nzFixNode_char h4).1
  have hg8 : g8.get .NODE_JS = g4.get .NODE_JS :=
    (nzListifyWasm_get h8 (by decide)).trans
      ((nzListifyEngines_get h7 (by decide)).trans
        ((nzFixJsEngine_get h6 (by decide) (by decide)).trans
          (nzFixV8_get h5 (by decide) (by decide))))
  calc gfin.get .NODE_JS
      = g8.get .NODE_JS :=
        normalize_tail_get hports hfin (by decide) (by decide) (by decide) (by decide)
          (by decide)
    _ = g4.get .NODE_JS := hg8
    _ = _ := by rw [hchar, hg3]

/-- The final `V8_ENGINE`: `None` stays `None`, anything else is listified. -/
theorem normalize_v8_char {rp hm : String} {env : Env} {w : Bool}
    {g gfin : Globals} (h : normalize_config_settings rp hm env w g = some gfin) :
    gfin.get .V8_ENGINE =
      (if g.get .V8_ENGINE = .vNone then .vNone else listify (g.get .V8_ENGINE)) := by
  obtain ⟨g2, g3, g4, g5, g6, g7, g8, g11, h2, h3, h4, h5, h6, h7, h8, hports, hfin⟩ :=
    normalize_decomp h
  have hg4 : g4.get .V8_ENGINE = g.get .V8_ENGINE :=
    (nzFixNode_get h4 (by decide) (by decide)).trans
      ((nzSpidermonkey_get h3 (by decide) (by decide)).trans
        ((nzSeedEngine_get h2 (by decide)).trans (nzSeedEngines_get g (by decide))))
  have hchar : g5.get .V8_ENGINE =
      (if g4.get .V8_ENGINE = .vNone then .vNone else listify (g4.get .V8_ENGINE)) :=
    (nzFixV8_char h5).1
  have hg8 : g8.get .V8_ENGINE = g5.get .V8_ENGINE :=
    (nzListifyWasm_get h8 (by decide)).trans
      ((nzListifyEngines_get h7 (by decide)).trans
        (nzFixJsEngine_get h6 (by decide) (by decide)))
  calc gfin.get .V8_ENGINE
      = g8.get .V8_ENGINE :=
        normalize_tail_get hports hfin (by decide) (by decide) (by decide) (by decide)
          (by decide)
    _ = g5.get .V8_ENGINE := hg8
    _ = _ := by rw [hchar, hg4]

/-- The final `CLOSURE_COMPILER` is the listified merged value. -/
theorem normalize_closure_char {rp hm : String} {env : Env} {w : Bool}
    {g gfin : Globals} (h : normalize_config_settings rp hm env w g = some gfin) :
    gfin.get .CLOSURE_COMPILER = listify (g.get .CLOSURE_COMPILER) := by
  obtain ⟨g8, g11, hfields, hports, hfin⟩ := normalize_late_get h
  have hg8 : g8.get .CLOSURE_COMPILER = g.get .CLOSURE_COMPILER :=
    hfields _ (by decide) (by decide) (by decide) (by decide) (by decide) (by decide)
  calc gfin.get .CLOSURE_COMPILER
      = g11.get .CLOSURE_COMPILER := by
        rw [hfin]; exact nzVersions_get env g11 (by decide) (by decide)
    _ = (nzCache rp hm w (nzClosure g8)).get .CLOSURE_COMPILER :=
        nzPorts_get hports (by decide)
    _ = (nzClosure g8).get .CLOSURE_COMPILER := nzCache_get rp hm w _ (by decide)
    _ = listify (g8.get .CLOSURE_COMPILER) := rfl
    _ = listify (g.get .CLOSURE_COMPILER) := by rw [hg8]

/-- C1 (amended): per recognized key, the merge applies the precedence
chain — a non-empty `EM_` override wins as a verbatim string, an empty
`EM_` override forces the key to `None` at the end of the override step
even when the source bound a non-empty value, otherwise the evaluated
binding is kept, otherwise the initial default; a key forced to `None` by
an empty override is also absent from the final config for the keys
normalization never derives (the derivable keys — cache, ports,
version-suffix flags and the engine seeds — may be re-populated). -/
theorem precedence_chain (env : Env) (config : RawConfig) (k : ConfigKey) :
    (∀ s, env ("EM_" ++ keyName k) = some s → s ≠ "" →
      (mergeAll env config initGlobals).get k = .vStr s)
    ∧ (env ("EM_" ++ keyName k) = some "" →
      (mergeAll env config initGlobals).get k = .vNone)
    ∧ (env ("EM_" ++ keyName k) = none → ∀ v, config k = some v →
      (mergeAll env config initGlobals).get k = v)
    ∧ (env ("EM_" ++ keyName k) = none → config k = none →
      (mergeAll env config initGlobals).get k = initGlobals.get k)
    ∧ (∀ emC rp hm w gfin,
        parse_config_file emC rp hm env w config = .ok gfin →
        env ("EM_" ++ keyName k) = some "" →
        (k = .SPIDERMONKEY_ENGINE ∨ k = .V8_ENGINE ∨ k = .CLOSURE_COMPILER ∨
         k = .JAVA ∨ k = .WASMER ∨ k = .WASMTIME ∨ k = .FROZEN_CACHE ∨
         k = .COMPILER_WRAPPER) →
        gfin.get k = .vNone) := by
  have hbase : ∀ P, env ("EM_" ++ keyName k) = P →
      (mergeAll env config initGlobals).get k =
        mergedValue env config (initGlobals.get k) k := fun _ _ => mergeAll_get env config k
  refine ⟨?_, ?_, ?_, ?_, ?_⟩
  · intro s hs hne
    rw [mergeAll_get]
    unfold mergedValue
    rw [hs]
    simp [hne]
  · intro hs
    rw [mergeAll_get]
    unfold mergedValue
    rw [hs]
    simp
  · intro hs v hv
    rw [mergeAll_get]
    unfold mergedValue
    rw [hs, hv]
  · intro hs hv
    rw [mergeAll_get]
    unfold mergedValue
    rw [hs, hv]
  · intro emC rp hm w gfin hok hempty hks
    have hmerged : (mergeAll env config initGlobals).get k = .vNone := by
      rw [mergeAll_get]
      unfold mergedValue
      rw [hempty]
      simp
    obtain ⟨-, -, hn⟩ := parse_ok_decomp hok
    rcases hks with rfl | rfl | rfl | rfl | rfl | rfl | rfl | rfl
    · rw [normalize_spidermonkey_falsy hn (by rw [hmerged]; rfl), hmerged]
    · rw [normalize_v8_char hn, hmerged]
      rfl
    · rw [normalize_closure_char hn, hmerged]
      rfl
    · exact (normalize_untouched_get hn (by decide)).trans hmerged
    · exact (normalize_untouched_get hn (by decide)).trans hmerged
    · exact (normalize_untouched_get hn (by decide)).trans hmerged
    · exact (normalize_untouched_get hn (by decide)).trans hmerged
    · exact (normalize_untouched_get hn (by decide)).trans hmerged


/-- Normalization applied to a state whose intermediate stages are known:
chain the ten statements. -/
theorem normalize_eq_of_steps {rp hm : String} {env : Env} {w : Bool}
    (g m1 m2 m3 m4 m5 m6 m7 m8 m10 gfin : Globals)
    (e1 : nzSeedEngines g = m1) (e2 : nzSeedEngine m1 = some m2)
    (e3 : nzSpidermonkey m2 = some m3) (e4 : nzFixNode m3 = some m4)
    (e5 : nzFixV8 m4 = some m5) (e6 : nzFixJsEngine m5 = some m6)
    (e7 : nzListifyEngines m6 = some m7) (e8 : nzListifyWasm m7 = some m8)
    (e9 : nzPorts (nzCache rp hm w (nzClosure m8)) = some m10)
    (e10 : nzVersions env m10 = gfin) :
    normalize_config_settings rp hm env w g = some gfin := by
  unfold normalize_config_settings
  rw [e1, e2]
  simp only [bind, Option.bind]
  rw [e3]; simp only []
  rw [e4]; simp only []
  rw [e5]; simp only []
  rw [e6]; simp only []
  rw [e7]; simp only []
  rw [e8]; simp only []
  rw [e9]; simp only []
  rw [e10]
  rfl

/-- `parse_config_file` succeeds when its three phases do. -/
theorem parse_config_file_eq_ok {emC rp hm : String} {env : Env} {w : Bool}
    {config : RawConfig} {g gfin : Globals}
    (hmerge : mergeAll env config initGlobals = g)
    (hcheck : checkMandatory emC config g mandatoryKeys = .ok ())
    (hnode : truthy g.NODE_JS = true)
    (hn : normalize_config_settings rp hm env w g = some gfin) :
    parse_config_file emC rp hm env w config = .ok gfin := by
  subst hmerge
  simp only [parse_config_file]
  rw [hcheck]
  simp only []
  rw [hnode]
  simp only [Bool.true_eq_false, if_false]
  rw [hn]

theorem normalize_basic_java :
    normalize_config_settings "/rt" "/h" envEmptyJava true mergedBasic =
      some basicFinal :=
  normalize_eq_of_steps mergedBasic basicStage1 basicStage2 basicStage2
    basicStage3 basicStage3 basicStage4 basicStage4 basicStage4 basicStage5
    basicFinal rfl rfl rfl rfl rfl rfl rfl rfl rfl rfl

theorem parse_basic_java :
    parse_config_file "cfg" "/rt" "/h" envEmptyJava true cfgWithJava =
      .ok basicFinal :=
  parse_config_file_eq_ok (g := mergedBasic) (by rfl) rfl rfl normalize_basic_java

theorem normalize_basic_cache :
    normalize_config_settings "/rt" "/h" envEmptyCache true mergedBasic =
      some basicFinal :=
  normalize_eq_of_steps mergedBasic basicStage1 basicStage2 basicStage2
    basicStage3 basicStage3 basicStage4 basicStage4 basicStage4 basicStage5
    basicFinal rfl rfl rfl rfl rfl rfl rfl rfl rfl rfl

theorem parse_basic_cache :
    parse_config_file "cfg" "/rt" "/h" envEmptyCache true cfgWithCache =
      .ok basicFinal :=
  parse_config_file_eq_ok (g := mergedBasic) (by rfl) rfl rfl normalize_basic_cache

/-- Witness for C1 (amended): `EM_JAVA=''` with a source that binds
`JAVA = '/usr/bin/java'` leaves `JAVA` `None` after the merge and absent in
the final config of a successful resolution. -/
theorem precedence_chain_witness :
    ((mergeAll envEmptyJava cfgWithJava initGlobals).get .JAVA = .vNone)
    ∧ ∃ gfin, parse_config_file "cfg" "/rt" "/h" envEmptyJava true cfgWithJava =
        .ok gfin ∧ gfin.get .JAVA = .vNone :=
  ⟨(precedence_chain envEmptyJava cfgWithJava .JAVA).2.1 (by decide),
   ⟨basicFinal, parse_basic_java,
    (precedence_chain envEmptyJava cfgWithJava .JAVA).2.2.2.2 "cfg" "/rt" "/h"
      true basicFinal parse_basic_java (by decide)
      (.inr (.inr (.inr (.inl rfl))))⟩⟩

/-- Counterexample for C1 as stated: the empty override `EM_CACHE=''` does
not leave `CACHE` absent in the final config, even though the source bound
the non-empty value `/explicit-cache` — the cache derivation re-populates
it. -/
theorem empty_override_not_absent_counterexample :
    envEmptyCache "EM_CACHE" = some "" ∧
    cfgWithCache .CACHE = some (.vStr "/explicit-cache") ∧
    parse_config_file "cfg" "/rt" "/h" envEmptyCache true cfgWithCache =
      .ok basicFinal ∧
    basicFinal.get .CACHE ≠ .vNone :=
  ⟨rfl, rfl, parse_basic_cache, by decide⟩

/-! Truthiness bookkeeping for the engines list. -/

theorem truthy_ne_none {v : PyVal} (h : truthy v = true) : v ≠ .vNone := by
  intro hv
  subst hv
  cases h

theorem pyIter_ne_nil {v : PyVal} {xs : List PyVal} (h : pyIter v = some xs)
    (ht : truthy v = true) : xs ≠ [] := by
  cases v with
  | vNone => cases h
  | vBool b => cases h
  | vStr s =>
    cases h
    cases s with
    | mk l =>
      intro hnil
      have hl : l = [] := by
        cases l with
        | nil => rfl
        | cons c cs => cases hnil
      subst hl
      cases ht
  | vList l =>
    cases h
    intro hnil
    subst hnil
    cases ht

theorem truthy_vList_of_ne_nil {l : List PyVal} (h : l ≠ []) :
    truthy (.vList l) = true := by
  unfold truthy
  simp [h]

theorem fix_js_engine_truthy_snd {old nw engines : PyVal} {r : PyVal × PyVal}
    (h : fix_js_engine old nw engines = some r) (ht : truthy engines = true) :
    truthy r.2 = true := by
  by_cases hn : old = PyVal.vNone
  · subst hn
    rw [fix_js_engine_snd_none h]
    exact ht
  · obtain ⟨xs, hxs, hr⟩ := fix_js_engine_snd h hn
    rw [hr]
    exact truthy_vList_of_ne_nil (by
      intro hmap
      exact pyIter_ne_nil hxs ht (List.map_eq_nil.mp hmap))

theorem nzSeedEngines_truthy (g : Globals) :
    truthy (nzSeedEngines g).JS_ENGINES = true := by
  unfold nzSeedEngines
  split
  · assumption
  · rfl

theorem nzSpidermonkey_truthy_engines {g g' : Globals}
    (hs : nzSpidermonkey g = some g') (ht : truthy g.JS_ENGINES = true) :
    truthy g'.JS_ENGINES = true := by
  unfold nzSpidermonkey at hs
  split at hs
  · split at hs
    · cases hs
    · split at hs
      · cases hs
      · rename_i r hr
        cases hs
        exact fix_js_engine_truthy_snd hr ht
  · cases hs
    exact ht

theorem nzFixNode_truthy_engines {g g' : Globals}
    (hs : nzFixNode g = some g') (ht : truthy g.JS_ENGINES = true) :
    truthy g'.JS_ENGINES = true := by
  unfold nzFixNode at hs
  rcases Option.map_eq_some'.mp hs with ⟨r, hr, hg⟩
  subst hg
  exact fix_js_engine_truthy_snd hr ht

theorem nzFixV8_truthy_engines {g g' : Globals}
    (hs : nzFixV8 g = some g') (ht : truthy g.JS_ENGINES = true) :
    truthy g'.JS_ENGINES = true := by
  unfold nzFixV8 at hs
  rcases Option.map_eq_some'.mp hs with ⟨r, hr, hg⟩
  subst hg
  exact fix_js_engine_truthy_snd hr ht

theorem nzFixJsEngine_truthy_engines {g g' : Globals}
    (hs : nzFixJsEngine g = some g') (ht : truthy g.JS_ENGINES = true) :
    truthy g'.JS_ENGINES = true := by
  unfold nzFixJsEngine at hs
  rcases Option.map_eq_some'.mp hs with ⟨r, hr, hg⟩
  subst hg
  exact fix_js_engine_truthy_snd hr ht

theorem pyConcat_char {a b c : PyVal} (h : pyConcat a b = some c) :
    ∃ m n, a = .vList m ∧ b = .vList n ∧ c = .vList (m ++ n) := by
  cases a with
  | vList m =>
    cases b with
    | vList n =>
      cases h
      exact ⟨m, n, rfl, rfl, rfl⟩
    | vNone => cases h
    | vBool x => cases h
    | vStr x => cases h
  | vNone => cases h
  | vBool x => cases h
  | vStr x => cases h

/-- Replacing occurrences of `a` by `a` itself is the identity map; this is
the shape of the `fix_js_engine` comprehension in the spidermonkey call,
where the in-place `+=` has made `old` and `new` the same value. -/
theorem map_replace_self (a : PyVal) (xs : List PyVal) :
    xs.map (fun x => if x = a then a else x) = xs := by
  induction xs with
  | nil => rfl
  | cons x t ih =>
    simp only [List.map_cons, ih]
    by_cases hx : x = a
    · rw [if_pos hx, hx]
    · rw [if_neg hx]

/-- The spidermonkey fix-up cannot disturb an engines list holding a single
plain string: with the in-place `+=` of the source, `fix_js_engine` receives
the same value as `old` and `new`, so the comprehension is the identity. -/
theorem nzSpidermonkey_singleton_str {g g' : Globals} {E : String}
    (hs : nzSpidermonkey g = some g')
    (hJS : g.JS_ENGINES = .vList [.vStr E]) :
    g'.JS_ENGINES = .vList [.vStr E] := by
  unfold nzSpidermonkey at hs
  by_cases htr : truthy g.SPIDERMONKEY_ENGINE = true
  · rw [htr] at hs
    simp only [if_true] at hs
    by_cases hcont : strContains (pyStr g.SPIDERMONKEY_ENGINE) "-w" = true
    · simp only [hcont, if_true] at hs
      cases hfix : fix_js_engine g.SPIDERMONKEY_ENGINE g.SPIDERMONKEY_ENGINE
          g.JS_ENGINES with
      | none => rw [hfix] at hs; cases hs
      | some r =>
        rw [hfix] at hs
        simp only [Option.some.injEq] at hs
        subst hs
        show r.2 = PyVal.vList [.vStr E]
        obtain ⟨xs, hxs, hr2⟩ := fix_js_engine_snd hfix (truthy_ne_none htr)
        rw [hJS] at hxs
        cases hxs
        rw [hr2]
        by_cases he : PyVal.vStr E = g.SPIDERMONKEY_ENGINE
        · simp [he]
        · simp [he]
    · rw [Bool.not_eq_true] at hcont
      simp only [hcont, Bool.false_eq_true, if_false] at hs
      cases hconc : pyConcat g.SPIDERMONKEY_ENGINE (.vList [.vStr "-w"]) with
      | none => rw [hconc] at hs; cases hs
      | some nw =>
        rw [hconc] at hs
        simp only [] at hs
        cases hfix : fix_js_engine nw nw g.JS_ENGINES with
        | none => rw [hfix] at hs; cases hs
        | some r =>
          rw [hfix] at hs
          simp only [Option.some.injEq] at hs
          subst hs
          show r.2 = PyVal.vList [.vStr E]
          obtain ⟨m, n, -, -, hc⟩ := pyConcat_char hconc
          obtain ⟨xs, hxs, hr2⟩ := fix_js_engine_snd hfix (by simp [hc])
          rw [hJS] at hxs
          cases hxs
          rw [hr2, map_replace_self]
  · rw [Bool.not_eq_true] at htr
    rw [htr] at hs
    simp only [Bool.false_eq_true, if_false] at hs
    cases hs
    exact hJS

/-- Replacing occurrences of `old` by `listify old` is the identity on a
list whose elements are all lists: a scalar `old` matches no element, and a
list `old` is its own listification. -/
theorem map_replace_listify_id {old : PyVal} {xs : List PyVal}
    (hxs : ∀ x ∈ xs, ∃ l, x = PyVal.vList l) :
    xs.map (fun x => if x = old then listify old else x) = xs := by
  induction xs with
  | nil => rfl
  | cons x t ih =>
    simp only [List.map_cons]
    have hx : (if x = old then listify old else x) = x := by
      by_cases he : x = old
      · obtain ⟨l, hl⟩ := hxs x (List.mem_cons_self x t)
        rw [if_pos he, ← he, hl]
        rfl
      · rw [if_neg he]
    rw [hx, ih fun y hy => hxs y (List.mem_cons_of_mem x hy)]

/-- C3 (amended): after every successful resolution `JS_ENGINES` is a
non-empty list; and when neither `JS_ENGINES` nor `JS_ENGINE` is supplied
and the primary engine `NODE_JS` is the string `E`, normalization yields
`JS_ENGINES == [[E]]` and `JS_ENGINE == [E]`. -/
theorem js_engines_seeding {emC rp hm : String} {env : Env} {w : Bool}
    {config : RawConfig} {gfin : Globals}
    (h : parse_config_file emC rp hm env w config = .ok gfin) :
    (∃ l, gfin.JS_ENGINES = .vList l ∧ l ≠ [])
    ∧ (∀ E : String,
        truthy (mergeAll env config initGlobals).JS_ENGINES = false →
        truthy (mergeAll env config initGlobals).JS_ENGINE = false →
        (mergeAll env config initGlobals).NODE_JS = .vStr E →
        gfin.JS_ENGINES = .vList [.vList [.vStr E]] ∧
        gfin.JS_ENGINE = .vList [.vStr E]) := by
  obtain ⟨-, -, hn⟩ := parse_ok_decomp h
  obtain ⟨g2, g3, g4, g5, g6, g7, g8, g11, h2, h3, h4, h5, h6, h7, h8, hports, hfin⟩ :=
    normalize_decomp hn
  have hfinJS : gfin.JS_ENGINES = g7.JS_ENGINES :=
    (normalize_tail_get (k := .JS_ENGINES) hports hfin (by decide) (by decide)
        (by decide) (by decide) (by decide)).trans
      (nzListifyWasm_get (k := .JS_ENGINES) h8 (by decide))
  have hfinJE : gfin.JS_ENGINE = g6.JS_ENGINE :=
    (normalize_tail_get (k := .JS_ENGINE) hports hfin (by decide) (by decide)
        (by decide) (by decide) (by decide)).trans
      ((nzListifyWasm_get (k := .JS_ENGINE) h8 (by decide)).trans
        (nzListifyEngines_get (k := .JS_ENGINE) h7 (by decide)))
  constructor
  · -- the engines list is never empty on success
    have t2 : truthy g2.JS_ENGINES = true := by
      rw [nzSeedEngine_JS_ENGINES h2]
      exact nzSeedEngines_truthy _
    have t6 : truthy g6.JS_ENGINES = true :=
      nzFixJsEngine_truthy_engines h6
        (nzFixV8_truthy_engines h5
          (nzFixNode_truthy_engines h4 (nzSpidermonkey_truthy_engines h3 t2)))
    obtain ⟨xs, hxs, h7e⟩ := nzListifyEngines_char h7
    refine ⟨xs.map listify, ?_, ?_⟩
    · rw [hfinJS]
      exact h7e
    · simp only [ne_eq, List.map_eq_nil]
      exact pyIter_ne_nil hxs t6
  · -- the seeding scenario
    intro E hJSs hJSe hNode
    -- stage 1: seed the engines list
    have e1JS : (nzSeedEngines (mergeAll env config initGlobals)).JS_ENGINES =
        .vList [.vStr E] := by
      rw [nzSeedEngines_JS_ENGINES, hJSs]
      simp only [Bool.false_eq_true, if_false]
      rw [hNode]
    have e1JE : (nzSeedEngines (mergeAll env config initGlobals)).JS_ENGINE =
        (mergeAll env config initGlobals).JS_ENGINE :=
      nzSeedEngines_get (k := .JS_ENGINE) _ (by decide)
    have e1N : (nzSeedEngines (mergeAll env config initGlobals)).NODE_JS =
        (mergeAll env config initGlobals).NODE_JS :=
      nzSeedEngines_get (k := .NODE_JS) _ (by decide)
    -- stage 2: seed the active engine
    have e2JS : g2.JS_ENGINES = .vList [.vStr E] := by
      rw [nzSeedEngine_JS_ENGINES h2]
      exact e1JS
    have e2JE : g2.JS_ENGINE = .vStr E := by
      rcases nzSeedEngine_char h2 with ⟨ht, -⟩ | ⟨-, e, he, hset⟩
      · rw [e1JE, hJSe] at ht
        cases ht
      · rw [e1JS] at he
        cases he
        exact hset
    have e2N : g2.NODE_JS = .vStr E := by
      have hfr : g2.NODE_JS =
          (nzSeedEngines (mergeAll env config initGlobals)).NODE_JS :=
        nzSeedEngine_get (k := .NODE_JS) h2 (by decide)
      rw [hfr, e1N, hNode]
    -- stage 3: the spidermonkey fix-up leaves a plain-string singleton alone
    have e3JS : g3.JS_ENGINES = .vList [.vStr E] := nzSpidermonkey_singleton_str h3 e2JS
    have e3JE : g3.JS_ENGINE = .vStr E := by
      have hfr : g3.JS_ENGINE = g2.JS_ENGINE :=
        nzSpidermonkey_get (k := .JS_ENGINE) h3 (by decide) (by decide)
      rw [hfr]
      exact e2JE
    have e3N : g3.NODE_JS = .vStr E := by
      have hfr : g3.NODE_JS = g2.NODE_JS :=
        nzSpidermonkey_get (k := .NODE_JS) h3 (by decide) (by decide)
      rw [hfr]
      exact e2N
    -- stage 4: the NODE_JS fix-up replaces the scalar by its listification
    have e4JS : g4.JS_ENGINES = .vList [.vList [.vStr E]] := by
      rcases (nzFixNode_char h4).2 with ⟨hnone, -⟩ | ⟨-, xs, hxs, hmap⟩
      · rw [e3N] at hnone
        cases hnone
      · rw [e3JS] at hxs
        cases hxs
        rw [hmap, e3N]
        simp [listify]
    have e4JE : g4.JS_ENGINE = .vStr E := by
      have hfr : g4.JS_ENGINE = g3.JS_ENGINE :=
        nzFixNode_get (k := .JS_ENGINE) h4 (by decide) (by decide)
      rw [hfr]
      exact e3JE
    -- stage 5: the V8 fix-up cannot match inside a list of lists
    have e5JS : g5.JS_ENGINES = .vList [.vList [.vStr E]] := by
      rcases (nzFixV8_char h5).2 with ⟨-, hkeep⟩ | ⟨-, xs, hxs, hmap⟩
      · rw [hkeep]
        exact e4JS
      · rw [e4JS] at hxs
        cases hxs
        rw [hmap, map_replace_listify_id]
        intro x hx
        simp only [List.mem_singleton] at hx
        exact ⟨[.vStr E], hx⟩
    have e5JE : g5.JS_ENGINE = .vStr E := by
      have hfr : g5.JS_ENGINE = g4.JS_ENGINE :=
        nzFixV8_get (k := .JS_ENGINE) h5 (by decide) (by decide)
      rw [hfr]
      exact e4JE
    -- stage 6: the JS_ENGINE fix-up listifies the scalar active engine
    have e6JS : g6.JS_ENGINES = .vList [.vList [.vStr E]] := by
      rcases (nzFixJsEngine_char h6).2 with ⟨hnone, -⟩ | ⟨-, xs, hxs, hmap⟩
      · rw [e5JE] at hnone
        cases hnone
      · rw [e5JS] at hxs
        cases hxs
        rw [hmap, e5JE]
        simp [listify]
    have e6JE : g6.JS_ENGINE = .vList [.vStr E] := by
      rw [(nzFixJsEngine_char h6).1, e5JE]
      simp [listify]
    -- stage 7: the per-entry listification is the identity here
    have e7JS : g7.JS_ENGINES = .vList [.vList [.vStr E]] := by
      obtain ⟨xs, hxs, h7e⟩ := nzListifyEngines_char h7
      rw [e6JS] at hxs
      cases hxs
      rw [h7e]
      simp [listify]
    exact ⟨hfinJS.trans e7JS, hfinJE.trans e6JE⟩

theorem parse_basic_plain :
    parse_config_file "cfg" "/rt" "/h" (fun _ => none) true cfgMandatory =
      .ok basicFinal :=
  parse_config_file_eq_ok (g := mergedBasic) (by rfl) rfl rfl
    (normalize_eq_of_steps mergedBasic basicStage1 basicStage2 basicStage2
      basicStage3 basicStage3 basicStage4 basicStage4 basicStage4 basicStage5
      basicFinal rfl rfl rfl rfl rfl rfl rfl rfl rfl rfl)

theorem parse_d8 :
    parse_config_file "cfg" "/rt" "/h" (fun _ => none) true cfgWithJsEngine =
      .ok d8Final :=
  parse_config_file_eq_ok (g := mergedD8) (by rfl) rfl rfl
    (normalize_eq_of_steps mergedD8 d8Stage1 d8Stage1 d8Stage1 d8Stage2 d8Stage2
      d8Stage3 d8Stage3 d8Stage3 d8Final d8Final
      rfl rfl rfl rfl rfl rfl rfl rfl rfl rfl)

/-- Witness for C3: unconfigured `JS_ENGINES` and `JS_ENGINE` with
`NODE_JS = 'node'` resolve to `[['node']]` and `['node']`. -/
theorem js_engines_seeding_witness :
    (∃ l, basicFinal.JS_ENGINES = .vList l ∧ l ≠ []) ∧
    basicFinal.JS_ENGINES = .vList [.vList [.vStr "node"]] ∧
    basicFinal.JS_ENGINE = .vList [.vStr "node"] :=
  ⟨(js_engines_seeding parse_basic_plain).1,
   (js_engines_seeding parse_basic_plain).2 "node" (by decide) (by decide) (by decide)⟩

/-- Counterexample for C3 as stated: with no explicit `JS_ENGINES` but an
explicit `JS_ENGINE = 'd8'`, normalization does not yield
`JS_ENGINE == [NODE_JS]`. -/
theorem js_engine_seed_counterexample :
    truthy (mergeAll (fun _ => none) cfgWithJsEngine initGlobals).JS_ENGINES = false ∧
    (mergeAll (fun _ => none) cfgWithJsEngine initGlobals).NODE_JS = .vStr "node" ∧
    parse_config_file "cfg" "/rt" "/h" (fun _ => none) true cfgWithJsEngine =
      .ok d8Final ∧
    d8Final.JS_ENGINE ≠ .vList [.vStr "node"] :=
  ⟨by decide, by decide, parse_d8, by decide⟩

/-! The substring test of the spidermonkey fix-up. -/

theorem startsWithCh_append (n t : List Char) : startsWithCh n (n ++ t) = true := by
  induction n with
  | nil => rfl
  | cons c cs ih => simp [startsWithCh, ih]

theorem containsCh_of_startsWith {n h : List Char} (hs : startsWithCh n h = true) :
    containsCh n h = true := by
  cases h with
  | nil => exact hs
  | cons c t => simp [containsCh, hs]

theorem containsCh_append (n p s : List Char) :
    containsCh n (p ++ (n ++ s)) = true := by
  induction p with
  | nil => exact containsCh_of_startsWith (startsWithCh_append n s)
  | cons c cs ih => simp [containsCh, ih]

/-- An element's repr occurs inside the comma-joined list body. -/
theorem pyReprList_mem_decomp {e : PyVal} :
    ∀ {l : List PyVal}, e ∈ l →
      ∃ p s : List Char, (pyReprList l).data = p ++ ((pyRepr e).data ++ s)
  | [], he => absurd he (List.not_mem_nil e)
  | x :: t, he => by
    rcases List.mem_cons.mp he with rfl | ht
    · cases t with
      | nil => exact ⟨[], [], by simp [pyReprList]⟩
      | cons y r =>
        refine ⟨[], (", " ++ pyReprList (y :: r)).data, ?_⟩
        simp [pyReprList, String.data_append]
    · cases t with
      | nil => cases ht
      | cons y r =>
        obtain ⟨p, s, hp⟩ := pyReprList_mem_decomp ht
        refine ⟨(pyRepr x ++ ", ").data ++ p, s, ?_⟩
        simp [pyReprList, String.data_append, hp]

/-- If `'-w'` is an element of the list, the `str` form contains `-w`. -/
theorem strContains_w_of_mem {l : List PyVal} (hm : PyVal.vStr "-w" ∈ l) :
    strContains (pyStr (.vList l)) "-w" = true := by
  obtain ⟨p, s, hp⟩ := pyReprList_mem_decomp hm
  have hdata : (pyStr (.vList l)).data =
      ('[' :: p ++ ['\x27']) ++ (['-', 'w'] ++ ('\x27' :: s ++ [']'])) := by
    show (pyRepr (.vList l)).data = _
    have : pyRepr (.vList l) = "[" ++ pyReprList l ++ "]" := rfl
    rw [this, String.data_append, String.data_append, hp]
    have hw : (pyRepr (PyVal.vStr "-w")).data = ['\x27', '-', 'w', '\x27'] := by decide
    rw [hw]
    simp
  unfold strContains
  rw [hdata]
  have : ("-w" : String).data = ['-', 'w'] := by decide
  rw [this]
  exact containsCh_append ['-', 'w'] ('[' :: p ++ ['\x27']) ('\x27' :: s ++ [']'])

theorem not_mem_w_of_no_contains {l : List PyVal}
    (h : strContains (pyStr (.vList l)) "-w" = false) : PyVal.vStr "-w" ∉ l := by
  intro hm
  rw [strContains_w_of_mem hm] at h
  cases h

theorem count_w_append_once {l : List PyVal} (h : PyVal.vStr "-w" ∉ l) :
    (l ++ [PyVal.vStr "-w"]).count (PyVal.vStr "-w") = 1 := by
  rw [List.count_append, List.count_eq_zero.mpr h]
  rfl

/-- The spidermonkey fix-up when the configured value is a non-empty list
whose string form lacks `-w`: `'-w'` is appended in place, so the value
handed to `fix_js_engine` as `old` is already the flagged one and the
engines list comes back with its entries unchanged. -/
theorem nzSpidermonkey_append_char {g g' : Globals} {l : List PyVal}
    (hs : nzSpidermonkey g = some g')
    (hsm : g.SPIDERMONKEY_ENGINE = .vList l) (hl : l ≠ [])
    (hnoflag : strContains (pyStr (.vList l)) "-w" = false) :
    g'.SPIDERMONKEY_ENGINE = .vList (l ++ [.vStr "-w"]) ∧
    ∃ xs, pyIter g.JS_ENGINES = some xs ∧ g'.JS_ENGINES = .vList xs := by
  unfold nzSpidermonkey at hs
  have htr : truthy g.SPIDERMONKEY_ENGINE = true := by
    rw [hsm]
    exact truthy_vList_of_ne_nil hl
  rw [htr] at hs
  simp only [if_true] at hs
  have hcont : strContains (pyStr g.SPIDERMONKEY_ENGINE) "-w" = false := by
    rw [hsm]
    exact hnoflag
  simp only [hcont, Bool.false_eq_true, if_false] at hs
  have hconc : pyConcat g.SPIDERMONKEY_ENGINE (.vList [.vStr "-w"]) =
      some (.vList (l ++ [.vStr "-w"])) := by
    rw [hsm]
    rfl
  rw [hconc] at hs
  simp only [] at hs
  have hnn : PyVal.vList (l ++ [.vStr "-w"]) ≠ .vNone := by
    intro hc
    cases hc
  cases hfix : fix_js_engine (.vList (l ++ [.vStr "-w"]))
      (.vList (l ++ [.vStr "-w"])) g.JS_ENGINES with
  | none => rw [hfix] at hs; cases hs
  | some r =>
    rw [hfix] at hs
    simp only [Option.some.injEq] at hs
    subst hs
    constructor
    · show r.1 = _
      rw [fix_js_engine_fst hfix, if_neg hnn]
    · obtain ⟨xs, hxs, hr2⟩ := fix_js_engine_snd hfix hnn
      refine ⟨xs, hxs, ?_⟩
      show r.2 = _
      rw [hr2, map_replace_self]

/-- C4 (amended): a configured `SPIDERMONKEY_ENGINE` list (non-empty,
string form without `-w`) gets `'-w'` appended exactly once; because the
source appends with an in-place `+=`, `fix_js_engine` receives the already
flagged value as `old`, so the fix-up hands the explicit `JS_ENGINES` list
back with its entries unchanged (equal-but-distinct occurrences of the
unflagged value are not replaced), and its length is preserved to the
end. -/
theorem spidermonkey_flag_fixup {emC rp hm : String} {env : Env} {w : Bool}
    {config : RawConfig} {gfin : Globals} {l e : List PyVal}
    (h : parse_config_file emC rp hm env w config = .ok gfin)
    (hsm : (mergeAll env config initGlobals).SPIDERMONKEY_ENGINE = .vList l)
    (hl : l ≠ [])
    (hnoflag : strContains (pyStr (.vList l)) "-w" = false)
    (hes : (mergeAll env config initGlobals).JS_ENGINES = .vList e)
    (hesne : e ≠ []) :
    gfin.SPIDERMONKEY_ENGINE = .vList (l ++ [.vStr "-w"]) ∧
    (l ++ [PyVal.vStr "-w"]).count (.vStr "-w") = 1 ∧
    (∃ g2 g3, nzSeedEngine (nzSeedEngines (mergeAll env config initGlobals)) = some g2 ∧
      nzSpidermonkey g2 = some g3 ∧
      g3.JS_ENGINES = .vList e) ∧
    (∃ lfin, gfin.JS_ENGINES = .vList lfin ∧ lfin.length = e.length) := by
  obtain ⟨-, -, hn⟩ := parse_ok_decomp h
  obtain ⟨g2, g3, g4, g5, g6, g7, g8, g11, h2, h3, h4, h5, h6, h7, h8, hports, hfin⟩ :=
    normalize_decomp hn
  have e2SM : g2.SPIDERMONKEY_ENGINE = .vList l := by
    have f1 : g2.SPIDERMONKEY_ENGINE =
        (nzSeedEngines (mergeAll env config initGlobals)).SPIDERMONKEY_ENGINE :=
      nzSeedEngine_get (k := .SPIDERMONKEY_ENGINE) h2 (by decide)
    have f2 : (nzSeedEngines (mergeAll env config initGlobals)).SPIDERMONKEY_ENGINE =
        (mergeAll env config initGlobals).SPIDERMONKEY_ENGINE :=
      nzSeedEngines_get (k := .SPIDERMONKEY_ENGINE) _ (by decide)
    rw [f1, f2, hsm]
  have e2JS : g2.JS_ENGINES = .vList e := by
    rw [nzSeedEngine_JS_ENGINES h2, nzSeedEngines_JS_ENGINES]
    have : truthy (mergeAll env config initGlobals).JS_ENGINES = true := by
      rw [hes]
      exact truthy_vList_of_ne_nil hesne
    rw [this]
    simp only [if_true]
    exact hes
  obtain ⟨hsm3, xs, hxs, hmap3⟩ := nzSpidermonkey_append_char h3 e2SM hl hnoflag
  rw [e2JS] at hxs
  cases hxs
  refine ⟨?_, count_w_append_once (not_mem_w_of_no_contains hnoflag),
    ⟨g2, g3, h2, h3, hmap3⟩, ?_⟩
  · have f1 : gfin.SPIDERMONKEY_ENGINE = g8.SPIDERMONKEY_ENGINE :=
      normalize_tail_get (k := .SPIDERMONKEY_ENGINE) hports hfin (by decide) (by decide)
        (by decide) (by decide) (by decide)
    have f2 : g8.SPIDERMONKEY_ENGINE = g3.SPIDERMONKEY_ENGINE :=
      (nzListifyWasm_get (k := .SPIDERMONKEY_ENGINE) h8 (by decide)).trans
        ((nzListifyEngines_get (k := .SPIDERMONKEY_ENGINE) h7 (by decide)).trans
          ((nzFixJsEngine_get (k := .SPIDERMONKEY_ENGINE) h6 (by decide) (by decide)).trans
            ((nzFixV8_get (k := .SPIDERMONKEY_ENGINE) h5 (by decide) (by decide)).trans
              (nzFixNode_get (k := .SPIDERMONKEY_ENGINE) h4 (by decide) (by decide)))))
    rw [f1, f2, hsm3]
  · -- the length of the engines list is preserved to the end
    have e4 : ∃ l4, g4.JS_ENGINES = .vList l4 ∧ l4.length = e.length := by
      rcases (nzFixNode_char h4).2 with ⟨-, hkeep⟩ | ⟨-, ys, hys, hm4⟩
      · exact ⟨_, hkeep.trans hmap3, by simp⟩
      · rw [hmap3] at hys
        cases hys
        exact ⟨_, hm4, by simp⟩
    obtain ⟨l4, hl4, hlen4⟩ := e4
    have e5 : ∃ l5, g5.JS_ENGINES = .vList l5 ∧ l5.length = e.length := by
      rcases (nzFixV8_char h5).2 with ⟨-, hkeep⟩ | ⟨-, ys, hys, hm5⟩
      · exact ⟨l4, hkeep.trans hl4, hlen4⟩
      · rw [hl4] at hys
        cases hys
        exact ⟨_, hm5, by simp [hlen4]⟩
    obtain ⟨l5, hl5, hlen5⟩ := e5
    have e6 : ∃ l6, g6.JS_ENGINES = .vList l6 ∧ l6.length = e.length := by
      rcases (nzFixJsEngine_char h6).2 with ⟨-, hkeep⟩ | ⟨-, ys, hys, hm6⟩
      · exact ⟨l5, hkeep.trans hl5, hlen5⟩
      · rw [hl5] at hys
        cases hys
        exact ⟨_, hm6, by simp [hlen5]⟩
    obtain ⟨l6, hl6, hlen6⟩ := e6
    obtain ⟨ys, hys, hm7⟩ := nzListifyEngines_char h7
    rw [hl6] at hys
    cases hys
    have f1 : gfin.JS_ENGINES = g7.JS_ENGINES :=
      (normalize_tail_get (k := .JS_ENGINES) hports hfin (by decide) (by decide)
          (by decide) (by decide) (by decide)).trans
        (nzListifyWasm_get (k := .JS_ENGINES) h8 (by decide))
    exact ⟨l6.map listify, f1.trans hm7, by simp [hlen6]⟩

theorem parse_sm :
    parse_config_file "cfg" "/rt" "/h" (fun _ => none) true cfgWithSm =
      .ok smFinal :=
  parse_config_file_eq_ok (g := smMerged) (by rfl) rfl rfl
    (normalize_eq_of_steps smMerged smMerged smStage1 smStage2 smStage3 smStage3
      smStage4 smStage4 smStage4 smFinal smFinal
      rfl rfl rfl rfl rfl rfl rfl rfl rfl rfl)

/-- Witness for C4: `SPIDERMONKEY_ENGINE = ['/sm']` (no `-w`) ends with
`-w` appended exactly once, with the engines-list length unchanged. -/
theorem spidermonkey_flag_fixup_witness :
    smFinal.SPIDERMONKEY_ENGINE = .vList [.vStr "/sm", .vStr "-w"] ∧
    ([PyVal.vStr "/sm"] ++ [PyVal.vStr "-w"]).count (.vStr "-w") = 1 ∧
    (∃ lfin, smFinal.JS_ENGINES = .vList lfin ∧ lfin.length = 2) := by
  have hc := spidermonkey_flag_fixup (l := [.vStr "/sm"])
    (e := [.vStr "node", .vList [.vStr "/sm"]]) parse_sm
    (by decide) (by decide) (by decide) (by decide) (by decide)
  obtain ⟨c1, c2, -, lf, hlf, hlen⟩ := hc
  exact ⟨by rw [c1]; rfl, c2, lf, hlf, by simpa using hlen⟩

/-- Counterexample for C4 as stated: with
`SPIDERMONKEY_ENGINE = ['/sm']` (string form without `-w`) and
`JS_ENGINES = ['node', ['/sm']]`, resolution succeeds, yet the final
engines list `[['node'], ['/sm']]` still holds the unflagged `['/sm']`
and not the flagged `['/sm', '-w']`: the in-place `+=` of the source
flags the engine object before `fix_js_engine` runs, so the replacement
of equal occurrences of the unflagged value never happens. -/
theorem spidermonkey_replace_counterexample :
    (mergeAll (fun _ => none) cfgWithSm initGlobals).SPIDERMONKEY_ENGINE =
      .vList [.vStr "/sm"] ∧
    strContains (pyStr (PyVal.vList [.vStr "/sm"])) "-w" = false ∧
    (mergeAll (fun _ => none) cfgWithSm initGlobals).JS_ENGINES =
      .vList [.vStr "node", .vList [.vStr "/sm"]] ∧
    parse_config_file "cfg" "/rt" "/h" (fun _ => none) true cfgWithSm =
      .ok smFinal ∧
    smFinal.JS_ENGINES =
      .vList [.vList [.vStr "node"], .vList [.vStr "/sm"]] ∧
    PyVal.vList [.vStr "/sm"] ∈
      [PyVal.vList [.vStr "node"], PyVal.vList [.vStr "/sm"]] ∧
    PyVal.vList [.vStr "/sm", .vStr "-w"] ∉
      [PyVal.vList [.vStr "node"], PyVal.vList [.vStr "/sm"]] :=
  ⟨by decide, by decide, by decide, parse_sm, by decide, by decide, by decide⟩

theorem isNoneOrList_listify (v : PyVal) : isNoneOrList (listify v) = true := by
  cases v <;> rfl

/-- The spidermonkey fix-up keeps a list-valued engine a list. -/
theorem nzSpidermonkey_fst_list {g g' : Globals} {l : List PyVal}
    (hs : nzSpidermonkey g = some g')
    (hsm : g.SPIDERMONKEY_ENGINE = .vList l) :
    ∃ m, g'.SPIDERMONKEY_ENGINE = .vList m := by
  unfold nzSpidermonkey at hs
  by_cases htr : truthy g.SPIDERMONKEY_ENGINE = true
  · rw [htr] at hs
    simp only [if_true] at hs
    by_cases hcont : strContains (pyStr g.SPIDERMONKEY_ENGINE) "-w" = true
    · simp only [hcont, if_true] at hs
      cases hfix : fix_js_engine g.SPIDERMONKEY_ENGINE g.SPIDERMONKEY_ENGINE
          g.JS_ENGINES with
      | none => rw [hfix] at hs; cases hs
      | some r =>
        rw [hfix] at hs
        simp only [Option.some.injEq] at hs
        subst hs
        refine ⟨l, ?_⟩
        show r.1 = _
        rw [fix_js_engine_fst hfix, if_neg (by rw [hsm]; intro hc; cases hc), hsm]
    · rw [Bool.not_eq_true] at hcont
      simp only [hcont, Bool.false_eq_true, if_false] at hs
      cases hconc : pyConcat g.SPIDERMONKEY_ENGINE (.vList [.vStr "-w"]) with
      | none => rw [hconc] at hs; cases hs
      | some nw =>
        rw [hconc] at hs
        simp only [] at hs
        cases hfix : fix_js_engine nw nw g.JS_ENGINES with
        | none => rw [hfix] at hs; cases hs
        | some r =>
          rw [hfix] at hs
          simp only [Option.some.injEq] at hs
          subst hs
          obtain ⟨m, n, -, -, hc⟩ := pyConcat_char hconc
          refine ⟨m ++ n, ?_⟩
          show r.1 = _
          rw [fix_js_engine_fst hfix, if_neg (by rw [hc]; intro hc2; cases hc2), hc]
  · rw [Bool.not_eq_true] at htr
    rw [htr] at hs
    simp only [Bool.false_eq_true, if_false] at hs
    cases hs
    exact ⟨l, hsm⟩

/-- C5 (amended): after every successful resolution, `NODE_JS`,
`V8_ENGINE`, `JS_ENGINE` and `CLOSURE_COMPILER` each hold `None` or a
list; `SPIDERMONKEY_ENGINE` does whenever its merged value was `None` or a
list; and every entry of the `JS_ENGINES` and `WASM_ENGINES` lists is
`None` or itself a list. -/
theorem engine_keys_none_or_list {emC rp hm : String} {env : Env} {w : Bool}
    {config : RawConfig} {gfin : Globals}
    (h : parse_config_file emC rp hm env w config = .ok gfin) :
    isNoneOrList gfin.NODE_JS = true ∧
    isNoneOrList gfin.V8_ENGINE = true ∧
    isNoneOrList gfin.JS_ENGINE = true ∧
    isNoneOrList gfin.CLOSURE_COMPILER = true ∧
    (isNoneOrList (mergeAll env config initGlobals).SPIDERMONKEY_ENGINE = true →
      isNoneOrList gfin.SPIDERMONKEY_ENGINE = true) ∧
    (∃ ls, gfin.JS_ENGINES = .vList ls ∧ ∀ x ∈ ls, isNoneOrList x = true) ∧
    (∃ ws, gfin.WASM_ENGINES = .vList ws ∧ ∀ x ∈ ws, isNoneOrList x = true) := by
  obtain ⟨-, -, hn⟩ := parse_ok_decomp h
  obtain ⟨g2, g3, g4, g5, g6, g7, g8, g11, h2, h3, h4, h5, h6, h7, h8, hports, hfin⟩ :=
    normalize_decomp hn
  refine ⟨?_, ?_, ?_, ?_, ?_, ?_, ?_⟩
  · have hN : gfin.NODE_JS =
        (if (mergeAll env config initGlobals).NODE_JS = .vNone then .vNone
         else listify (mergeAll env config initGlobals).NODE_JS) :=
      normalize_node_char hn
    rw [hN]
    split
    · rfl
    · exact isNoneOrList_listify _
  · have hV : gfin.V8_ENGINE =
        (if (mergeAll env config initGlobals).V8_ENGINE = .vNone then .vNone
         else listify (mergeAll env config initGlobals).V8_ENGINE) :=
      normalize_v8_char hn
    rw [hV]
    split
    · rfl
    · exact isNoneOrList_listify _
  · have hfinJE : gfin.JS_ENGINE = g6.JS_ENGINE :=
      (normalize_tail_get (k := .JS_ENGINE) hports hfin (by decide) (by decide)
          (by decide) (by decide) (by decide)).trans
        ((nzListifyWasm_get (k := .JS_ENGINE) h8 (by decide)).trans
          (nzListifyEngines_get (k := .JS_ENGINE) h7 (by decide)))
    rw [hfinJE, (nzFixJsEngine_char h6).1]
    split
    · rfl
    · exact isNoneOrList_listify _
  · have hC : gfin.CLOSURE_COMPILER =
        listify (mergeAll env config initGlobals).CLOSURE_COMPILER :=
      normalize_closure_char hn
    rw [hC]
    exact isNoneOrList_listify _
  · intro hmergedSM
    have hfinSM : gfin.SPIDERMONKEY_ENGINE = g3.SPIDERMONKEY_ENGINE :=
      (normalize_tail_get (k := .SPIDERMONKEY_ENGINE) hports hfin (by decide)
          (by decide) (by decide) (by decide) (by decide)).trans
        ((nzListifyWasm_get (k := .SPIDERMONKEY_ENGINE) h8 (by decide)).trans
          ((nzListifyEngines_get (k := .SPIDERMONKEY_ENGINE) h7 (by decide)).trans
            ((nzFixJsEngine_get (k := .SPIDERMONKEY_ENGINE) h6 (by decide)
                (by decide)).trans
              ((nzFixV8_get (k := .SPIDERMONKEY_ENGINE) h5 (by decide) (by decide)).trans
                (nzFixNode_get (k := .SPIDERMONKEY_ENGINE) h4 (by decide)
                  (by decide))))))
    have h2SM : g2.SPIDERMONKEY_ENGINE =
        (mergeAll env config initGlobals).SPIDERMONKEY_ENGINE := by
      have f1 : g2.SPIDERMONKEY_ENGINE =
          (nzSeedEngines (mergeAll env config initGlobals)).SPIDERMONKEY_ENGINE :=
        nzSeedEngine_get (k := .SPIDERMONKEY_ENGINE) h2 (by decide)
      rw [f1]
      exact nzSeedEngines_get (k := .SPIDERMONKEY_ENGINE) _ (by decide)
    rw [hfinSM]
    cases hc : (mergeAll env config initGlobals).SPIDERMONKEY_ENGINE with
    | vNone =>
      have hskip : g3 = g2 := nzSpidermonkey_skip h3 (by rw [h2SM, hc]; rfl)
      rw [hskip, h2SM, hc]
      rfl
    | vList lsm =>
      obtain ⟨m, hm⟩ := nzSpidermonkey_fst_list h3 (by rw [h2SM, hc])
      rw [hm]
      rfl
    | vBool b => rw [hc] at hmergedSM; cases hmergedSM
    | vStr s => rw [hc] at hmergedSM; cases hmergedSM
  · have hfinJS : gfin.JS_ENGINES = g7.JS_ENGINES :=
      (normalize_tail_get (k := .JS_ENGINES) hports hfin (by decide) (by decide)
          (by decide) (by decide) (by decide)).trans
        (nzListifyWasm_get (k := .JS_ENGINES) h8 (by decide))
    obtain ⟨xs, -, h7e⟩ := nzListifyEngines_char h7
    refine ⟨xs.map listify, hfinJS.trans h7e, ?_⟩
    intro x hx
    obtain ⟨y, -, hy⟩ := List.mem_map.mp hx
    rw [← hy]
    exact isNoneOrList_listify y
  · have hfinWM : gfin.WASM_ENGINES = g8.WASM_ENGINES :=
      normalize_tail_get (k := .WASM_ENGINES) hports hfin (by decide) (by decide)
        (by decide) (by decide) (by decide)
    obtain ⟨xs, -, h8e⟩ := nzListifyWasm_char h8
    refine ⟨xs.map listify, hfinWM.trans h8e, ?_⟩
    intro x hx
    obtain ⟨y, -, hy⟩ := List.mem_map.mp hx
    rw [← hy]
    exact isNoneOrList_listify y

theorem parse_smStr :
    parse_config_file "cfg" "/rt" "/h" (fun _ => none) true cfgWithSmStr =
      .ok smStrFinal :=
  parse_config_file_eq_ok (g := smStrMerged) (by rfl) rfl rfl
    (normalize_eq_of_steps smStrMerged smStrStage1 smStrStage2 smStrStage2
      smStrStage3 smStrStage3 smStrStage4 smStrStage4 smStrStage4 smStrFinal
      smStrFinal rfl rfl rfl rfl rfl rfl rfl rfl rfl rfl)

/-- Counterexample for C5 as stated: a spidermonkey engine configured as
the bare string `/opt/sm-wrap` (whose text already contains `-w`) survives
normalization as a non-absent bare scalar — not a list, let alone a list
of strings. -/
theorem engine_scalar_counterexample :
    parse_config_file "cfg" "/rt" "/h" (fun _ => none) true cfgWithSmStr =
      .ok smStrFinal ∧
    smStrFinal.SPIDERMONKEY_ENGINE ≠ .vNone ∧
    isNoneOrList smStrFinal.SPIDERMONKEY_ENGINE = false ∧
    isListOfStrings smStrFinal.SPIDERMONKEY_ENGINE = false :=
  ⟨parse_smStr, by decide, by decide, by decide⟩

/-- Witness for C5 (amended): on the spidermonkey-list fixture all engine
keys come out as `None`-or-list, the merged spidermonkey value being a
list. -/
theorem engine_keys_none_or_list_witness :
    isNoneOrList smFinal.NODE_JS = true ∧
    isNoneOrList smFinal.JS_ENGINE = true ∧
    isNoneOrList smFinal.SPIDERMONKEY_ENGINE = true ∧
    (∃ ls, smFinal.JS_ENGINES = .vList ls ∧ ∀ x ∈ ls, isNoneOrList x = true) := by
  have hc := engine_keys_none_or_list parse_sm
  exact ⟨hc.1, hc.2.2.1, hc.2.2.2.2.1 (by decide), hc.2.2.2.2.2.1⟩

/-- Witness for C7: with a writable root, no `CACHE` and no `PORTS`, the
derived values are `<root>/cache` and `<root>/cache/ports`. -/
theorem cache_ports_derivation_witness :
    ∃ gfin, parse_config_file "cfg" "/rt" "/h" (fun _ => none) true cfgMandatory =
        .ok gfin ∧
      gfin.get .CACHE = .vStr (osJoin "/rt" "cache") ∧
      ∃ c, gfin.get .CACHE = .vStr c ∧ gfin.get .PORTS = .vStr (osJoin c "ports") := by
  have hc := cache_ports_derivation parse_basic_plain (by decide)
  exact ⟨basicFinal, parse_basic_plain, hc.1 (by decide), hc.2.2 (by decide)⟩
